import Mathlib

/-!
# Verification of the parking-lot system's allocation core

A shallow embedding of the Go parking-lot repository: the in-memory
spot grid (`InMemoryParkingRepository`), the vehicle indexes, and the
service layer (`ParkingService`) that orchestrates park/unpark/configure.
Mutating Go methods become state-passing functions `Repo → Result × Repo`;
Go maps become association lists observed only through lookup;
`fmt.Sscanf`/`fmt.Sprintf` on the `"%d-%d-%d"` spot-ID format are modelled
character by character, including Go's 64-bit integer range check.
-/

namespace ParkingLot

/-! ## Decimal formatting and scanning (fmt.Sprintf "%d", fmt.Sscanf "%d") -/

/-- The decimal digit character for `d < 10` (as Go's integer formatting emits). -/
def digitChar (d : Nat) : Char :=
  match d with
  | 0 => '0' | 1 => '1' | 2 => '2' | 3 => '3' | 4 => '4'
  | 5 => '5' | 6 => '6' | 7 => '7' | 8 => '8' | _ => '9'

/-- Numeric value of a digit character (Go computes `rune - '0'`). -/
def charValue (c : Char) : Nat := c.toNat - 48

/-- Is `c` an ASCII decimal digit? -/
def isDigitCh (c : Char) : Bool := 48 ≤ c.toNat && c.toNat ≤ 57

/-- Whitespace skipped by Go's scanner before a `%d` verb. -/
def isSpaceCh (c : Char) : Bool := c == ' ' || c == '\t' || c == '\n' || c == '\r'

/-- Digits of `n` in order, prepended to `acc`; `fuel ≥ n` makes it total
(the recursion divides `n` by 10). -/
def natDigitsAux : Nat → Nat → List Char → List Char
  | 0, n, acc => digitChar (n % 10) :: acc
  | fuel + 1, n, acc =>
    if n < 10 then digitChar n :: acc
    else natDigitsAux fuel (n / 10) (digitChar (n % 10) :: acc)

/-- Go's decimal rendering of a natural number. -/
def goNatStr (n : Nat) : String := String.mk (natDigitsAux n n [])

/-- Go's `%d` rendering of a (signed) integer. -/
def goIntStr (i : Int) : String :=
  if i < 0 then "-" ++ goNatStr (-i).toNat else goNatStr i.toNat

/-- `fmt.Sprintf("%d-%d-%d", floor, row, column)`: the canonical spot ID. -/
def fmtSpotID (floor row column : Int) : String :=
  goIntStr floor ++ "-" ++ goIntStr row ++ "-" ++ goIntStr column

/-- Greedy digit scan with accumulator: consumes the maximal digit run,
returning the accumulated value and the rest of the input. -/
def scanDigitsAux : List Char → Nat → Nat × List Char
  | [], a => (a, [])
  | c :: t, a =>
    if isDigitCh c then scanDigitsAux t (a * 10 + charValue c) else (a, c :: t)

/-- Leading-space skipping of Go's scanner before a verb. -/
def skipSpacesCh : List Char → List Char
  | [] => []
  | c :: t => if isSpaceCh c then skipSpacesCh t else c :: t

/-- The digit run of a `%d` verb: at least one digit, scanned greedily. -/
def scanMagnitude (cs : List Char) : Option (Nat × List Char) :=
  match cs with
  | [] => none
  | c :: t => if isDigitCh c then some (scanDigitsAux t (charValue c)) else none

/-- Go's scan of one `%d` verb: skip leading spaces, read an optional sign and
at least one digit, and reject values outside the 64-bit signed range
(Go stores into an `int`; `strconv` reports `ErrRange` and `Sscanf` fails). -/
def scanGoInt (cs : List Char) : Option (Int × List Char) :=
  match skipSpacesCh cs with
  | [] => none
  | c :: t =>
    if c = '-' then
      match scanMagnitude t with
      | some (v, rest) => if (v : Int) ≤ 2 ^ 63 then some (-(v : Int), rest) else none
      | none => none
    else if c = '+' then
      match scanMagnitude t with
      | some (v, rest) => if (v : Int) < 2 ^ 63 then some ((v : Int), rest) else none
      | none => none
    else
      match scanMagnitude (c :: t) with
      | some (v, rest) => if (v : Int) < 2 ^ 63 then some ((v : Int), rest) else none
      | none => none

/-- Match one literal (non-space) format character, as Go's `Sscanf` does. -/
def scanLit (c : Char) (cs : List Char) : Option (List Char) :=
  match cs with
  | [] => none
  | c' :: t => if c' = c then some t else none

/-- `fmt.Sscanf(s, "%d-%d-%d", &floor, &row, &column)`: three `%d` verbs
separated by literal dashes. Input remaining after the third integer is
ignored, exactly as `Sscanf` ignores it (the code checks only `err`). -/
def sscanfSpotID (s : String) : Option (Int × Int × Int) :=
  match scanGoInt s.data with
  | none => none
  | some (floor, r1) =>
    match scanLit '-' r1 with
    | none => none
    | some r2 =>
      match scanGoInt r2 with
      | none => none
      | some (row, r3) =>
        match scanLit '-' r3 with
        | none => none
        | some r4 =>
          match scanGoInt r4 with
          | none => none
          | some (column, _) => some (floor, row, column)

/-! ## Go maps as association lists (observed only through lookup) -/

/-- `m[key]`: the map lookup `spotID, exists := m[key]`. -/
def mapLookup : List (String × String) → String → Option String
  | [], _ => none
  | (k, v) :: t, key => if k = key then some v else mapLookup t key

/-- `delete(m, key)`. -/
def mapErase (m : List (String × String)) (key : String) : List (String × String) :=
  m.filter (fun p => p.1 != key)

/-- `m[key] = val` (insert or overwrite; iteration order is never observed). -/
def mapInsert (m : List (String × String)) (key val : String) :
    List (String × String) :=
  (key, val) :: mapErase m key

/-! ## Error constants (pkg/errors) -/

def ErrInvalidLocation : String := "invalid parking spot location: index out of bounds"

def ErrInvalidSpotID : String := "invalid spot ID format: must be floor-row-column"

def ErrInvalidSpotType : String := "invalid spot type: must be B-1, M-1, A-1, or X-0"

def ErrInvalidVehicleType : String := "invalid vehicle type: must be Bicycle, Motorcycle, or Automobile"

def ErrVehicleAlreadyParked : String := "vehicle is already parked"

def ErrVehicleNotParked : String := "vehicle is not currently parked"

def ErrVehicleNotAtSpot : String := "vehicle is not parked at the specified spot"

def ErrNoAvailableSpot : String := "no available parking spot for the specified vehicle type"

/-! ## Vehicle-type constants (domain/parking) -/

def Bicycle : String := "Bicycle"

def Motorcycle : String := "Motorcycle"

def Automobile : String := "Automobile"

/-! ## The repository state -/

/-- One parking spot record, as stored in the repository's 3-D slice. -/
structure ParkingSpot where
  floor : Int
  row : Int
  column : Int
  vehicleType : String
  isActive : Bool
  isOccupied : Bool
  vehicleNumber : String
deriving DecidableEq, Repr

/-- The zero `*ParkingSpot` (never reached through in-bounds access). -/
def defaultSpot : ParkingSpot :=
  { floor := 0, row := 0, column := 0, vehicleType := ""
    isActive := false, isOccupied := false, vehicleNumber := "" }

/-- The in-memory repository: dimensions, the 3-D grid of spots, and the
two vehicle indexes (`vehicleNumber → current spotID`,
`vehicleNumber → last spotID`). The Go `sync.RWMutex` serializes each
repository method; each method below is one such atomic step. -/
structure InMemoryParkingRepository where
  floors : Int
  rows : Int
  columns : Int
  gates : Int
  spots : List (List (List ParkingSpot))
  vehicleMap : List (String × String)
  vehicleHistory : List (String × String)
deriving DecidableEq, Repr

/-- `NewParkingRepository()`: zero dimensions, nil grid, empty maps. -/
def newParkingRepository : InMemoryParkingRepository :=
  { floors := 0, rows := 0, columns := 0, gates := 0
    spots := [], vehicleMap := [], vehicleHistory := [] }

namespace InMemoryParkingRepository

/-- `r.spots[floor][row][column]` with `Nat` indices (every code path
bounds-checks first; the default is never reached on those paths). -/
def getSpotN (r : InMemoryParkingRepository) (floor row column : Nat) : ParkingSpot :=
  ((r.spots.getD floor []).getD row []).getD column defaultSpot

/-- Write `r.spots[floor][row][column] := s` (`List.set` is a no-op out of
range, matching the bounds-checked call sites). -/
def setSpotN (r : InMemoryParkingRepository) (floor row column : Nat)
    (s : ParkingSpot) : InMemoryParkingRepository :=
  { r with spots := r.spots.set floor ((r.spots.getD floor []).set row
      (((r.spots.getD floor []).getD row []).set column s)) }

/-- Grid access at Go `int` coordinates (used only after bounds checks). -/
def getSpot (r : InMemoryParkingRepository) (floor row column : Int) : ParkingSpot :=
  r.getSpotN floor.toNat row.toNat column.toNat

/-- Grid write at Go `int` coordinates (used only after bounds checks). -/
def setSpot (r : InMemoryParkingRepository) (floor row column : Int)
    (s : ParkingSpot) : InMemoryParkingRepository :=
  r.setSpotN floor.toNat row.toNat column.toNat s

/-- `isValidLocation`: the pure bounds check. -/
def isValidLocation (r : InMemoryParkingRepository) (floor row column : Int) : Bool :=
  0 ≤ floor && floor < r.floors &&
  0 ≤ row && row < r.rows &&
  0 ≤ column && column < r.columns

/-- The grid the initialization loops build: every spot records its own
coordinates and starts unconfigured, inactive and unoccupied. -/
def freshGrid (floors rows columns : Int) : List (List (List ParkingSpot)) :=
  (List.range floors.toNat).map (fun f : Nat =>
    (List.range rows.toNat).map (fun row : Nat =>
      (List.range columns.toNat).map (fun col : Nat =>
        { floor := (f : Int), row := (row : Int), column := (col : Int)
          vehicleType := "", isActive := false, isOccupied := false
          vehicleNumber := "" })))

/-- `InitializeParkingLot`: store the dimensions and build a fresh
`floors × rows × columns` grid of zero-valued spots carrying their own
coordinates. The vehicle maps are untouched. Always returns `nil`. -/
def initializeParkingLot (r : InMemoryParkingRepository)
    (floors rows columns gates : Int) : Except String Unit × InMemoryParkingRepository :=
  (Except.ok (),
    { r with
      floors := floors, rows := rows, columns := columns, gates := gates
      spots := freshGrid floors rows columns })

/-- `ConfigureSpot` (repository level): bounds check, then set the type and
active flag unconditionally. -/
def configureSpot (r : InMemoryParkingRepository) (floor row column : Int)
    (vehicleType : String) (isActive : Bool) :
    Except String Unit × InMemoryParkingRepository :=
  if !r.isValidLocation floor row column then (Except.error ErrInvalidLocation, r)
  else
    let spot := r.getSpot floor row column
    (Except.ok (),
      r.setSpot floor row column { spot with vehicleType := vehicleType, isActive := isActive })

/-- `IsSpotOccupied`: bounds check, then read the occupancy flag. -/
def isSpotOccupied (r : InMemoryParkingRepository) (floor row column : Int) :
    Except String Bool :=
  if !r.isValidLocation floor row column then Except.error ErrInvalidLocation
  else Except.ok (r.getSpot floor row column).isOccupied

/-- The coordinates the triple loop `for f … for row … for col …` visits, in
visit order: floors, then rows, then columns, all ascending. -/
def coordList (r : InMemoryParkingRepository) : List (Nat × Nat × Nat) :=
  (List.range r.floors.toNat).flatMap (fun f =>
    (List.range r.rows.toNat).flatMap (fun row =>
      (List.range r.columns.toNat).map (fun col => (f, row, col))))

/-- The loop body's condition: `spot.IsActive && spot.VehicleType == vehicleType
&& !spot.IsOccupied`. -/
def spotMatches (r : InMemoryParkingRepository) (vehicleType : String)
    (p : Nat × Nat × Nat) : Bool :=
  let s := r.getSpotN p.1 p.2.1 p.2.2
  s.isActive && s.vehicleType == vehicleType && !s.isOccupied

/-- `FindAvailableSpot`: the triple loop returns the first matching spot's ID,
or `NoAvailableSpot` when the loop falls through. -/
def findAvailableSpot (r : InMemoryParkingRepository) (vehicleType : String) :
    Except String String :=
  match (r.coordList).find? (r.spotMatches vehicleType) with
  | some (f, row, col) => Except.ok (fmtSpotID (f : Int) (row : Int) (col : Int))
  | none => Except.error ErrNoAvailableSpot

/-- `parseSpotID` (helper): `Sscanf` the `"%d-%d-%d"` pattern, then bounds-check
the parsed coordinates. -/
def parseSpotID (r : InMemoryParkingRepository) (spotID : String) :
    Except String (Int × Int × Int) :=
  match sscanfSpotID spotID with
  | none => Except.error ErrInvalidSpotID
  | some (floor, row, column) =>
    if !r.isValidLocation floor row column then Except.error ErrInvalidLocation
    else Except.ok (floor, row, column)

/-- `ParkVehicle`: parse the spot ID, mark the spot occupied by the vehicle
(no prior-occupancy check — the caller's responsibility), and index the
vehicle in `vehicleMap`. -/
def parkVehicle (r : InMemoryParkingRepository) (spotID vehicleNumber : String) :
    Except String Unit × InMemoryParkingRepository :=
  match r.parseSpotID spotID with
  | Except.error e => (Except.error e, r)
  | Except.ok (floor, row, col) =>
    let spot := r.getSpot floor row col
    let r' := r.setSpot floor row col
      { spot with isOccupied := true, vehicleNumber := vehicleNumber }
    (Except.ok (), { r' with vehicleMap := mapInsert r'.vehicleMap vehicleNumber spotID })

/-- `UnparkVehicle`: bounds check; fail `VehicleNotAtSpot` unless the spot is
occupied by exactly this vehicle; else clear the spot, record the spot in
`vehicleHistory` and drop the vehicle from `vehicleMap`. -/
def unparkVehicle (r : InMemoryParkingRepository) (floor row column : Int)
    (vehicleNumber : String) : Except String Unit × InMemoryParkingRepository :=
  if !r.isValidLocation floor row column then (Except.error ErrInvalidLocation, r)
  else
    let spot := r.getSpot floor row column
    if !spot.isOccupied || spot.vehicleNumber != vehicleNumber then
      (Except.error (ErrVehicleNotAtSpot ++ ": " ++ vehicleNumber ++ " at spot " ++
        goIntStr floor ++ "-" ++ goIntStr row ++ "-" ++ goIntStr column), r)
    else
      let r' := r.setSpot floor row column
        { spot with isOccupied := false, vehicleNumber := "" }
      let spotID := goIntStr floor ++ "-" ++ goIntStr row ++ "-" ++ goIntStr column
      (Except.ok (),
        { r' with vehicleHistory := mapInsert r'.vehicleHistory vehicleNumber spotID
                  vehicleMap := mapErase r'.vehicleMap vehicleNumber })

/-- `IsVehicleParked`: `spotID, exists := vehicleMap[vehicleNumber]`
(the `error` result is always `nil`; the zero string comes back on a miss). -/
def isVehicleParked (r : InMemoryParkingRepository) (vehicleNumber : String) :
    Bool × String :=
  match mapLookup r.vehicleMap vehicleNumber with
  | some spotID => (true, spotID)
  | none => (false, "")

/-- `GetAvailableSpots`: the same scan, collecting every match in visit order;
errors when the collection is empty. -/
def getAvailableSpots (r : InMemoryParkingRepository) (vehicleType : String) :
    Except String (List String) :=
  let available := ((r.coordList).filter (r.spotMatches vehicleType)).map
    (fun p => fmtSpotID (p.1 : Int) (p.2.1 : Int) (p.2.2 : Int))
  if available.length = 0 then
    Except.error (ErrNoAvailableSpot ++ ": " ++ vehicleType)
  else Except.ok available

/-- `SearchVehicle`: the current spot (`isParked = true`), else the last
historical spot (`isParked = false`), else a "never parked" error. -/
def searchVehicle (r : InMemoryParkingRepository) (vehicleNumber : String) :
    Except String (String × Bool) :=
  match mapLookup r.vehicleMap vehicleNumber with
  | some spotID => Except.ok (spotID, true)
  | none =>
    match mapLookup r.vehicleHistory vehicleNumber with
    | some lastSpotID => Except.ok (lastSpotID, false)
    | none => Except.error ("vehicle " ++ vehicleNumber ++
        " has never been parked in this parking lot")

end InMemoryParkingRepository

/-! ## The service layer (domain/parking)

`ParkingService` holds only the repository pointer, so each method is a
function on the repository state. Each repository call inside a method
locks and unlocks the shared mutex on its own; the service itself holds no
lock across calls. -/

namespace ParkingService

open InMemoryParkingRepository

/-- `validateVehicleType`: the `switch` over the three known kinds. -/
def validateVehicleType (vehicleType : String) : Except String Unit :=
  if vehicleType = Bicycle ∨ vehicleType = Motorcycle ∨ vehicleType = Automobile then
    Except.ok ()
  else Except.error ErrInvalidVehicleType

/-- `validateVehicleNumber`: reject the empty string. -/
def validateVehicleNumber (vehicleNumber : String) : Except String Unit :=
  if vehicleNumber = "" then Except.error "vehicle number cannot be empty"
  else Except.ok ()

/-- `InitializeParkingLot` (service): validate the dimension ranges, then
delegate to the repository. -/
def initializeParkingLot (r : InMemoryParkingRepository)
    (floors rows columns gates : Int) : Except String Unit × InMemoryParkingRepository :=
  if floors < 1 ∨ 8 < floors then (Except.error "floors must be between 1 and 8", r)
  else if rows < 1 ∨ 1000 < rows then (Except.error "rows must be between 1 and 1000", r)
  else if columns < 1 ∨ 1000 < columns then
    (Except.error "columns must be between 1 and 1000", r)
  else if gates < 1 then (Except.error "gates must be at least 1", r)
  else r.initializeParkingLot floors rows columns gates

/-- The `switch spotType` table of `ConfigureSpot`: code → (vehicleType, isActive). -/
def spotTypeTable (spotType : String) : Option (String × Bool) :=
  if spotType = "B-1" then some (Bicycle, true)
  else if spotType = "M-1" then some (Motorcycle, true)
  else if spotType = "A-1" then some (Automobile, true)
  else if spotType = "X-0" then some ("", false)
  else none

/-- `ConfigureSpot` (service): bounds check, refuse an occupied spot, decode
the spot-type code, then delegate to the repository. -/
def configureSpot (r : InMemoryParkingRepository) (floor row column : Int)
    (spotType : String) : Except String Unit × InMemoryParkingRepository :=
  if !r.isValidLocation floor row column then (Except.error ErrInvalidLocation, r)
  else
    match r.isSpotOccupied floor row column with
    | Except.error e => (Except.error e, r)
    | Except.ok isOccupied =>
      if isOccupied then (Except.error "cannot reconfigure an occupied parking spot", r)
      else
        match spotTypeTable spotType with
        | none => (Except.error ErrInvalidSpotType, r)
        | some (vehicleType, isActive) =>
          r.configureSpot floor row column vehicleType isActive

/-- `Park`: validate inputs, reject an already-parked vehicle, find a spot,
occupy it. Each repository call is its own locked step. -/
def park (r : InMemoryParkingRepository) (vehicleType vehicleNumber : String) :
    Except String String × InMemoryParkingRepository :=
  match validateVehicleType vehicleType with
  | Except.error e => (Except.error e, r)
  | Except.ok _ =>
    match validateVehicleNumber vehicleNumber with
    | Except.error e => (Except.error e, r)
    | Except.ok _ =>
      let (isParked, currentSpotID) := r.isVehicleParked vehicleNumber
      if isParked then
        (Except.error (ErrVehicleAlreadyParked ++ ": " ++ vehicleNumber ++
          " at spot " ++ currentSpotID), r)
      else
        match r.findAvailableSpot vehicleType with
        | Except.error _ => (Except.error ErrNoAvailableSpot, r)
        | Except.ok spotID =>
          match r.parkVehicle spotID vehicleNumber with
          | (Except.error e, r1) => (Except.error e, r1)
          | (Except.ok _, r1) => (Except.ok spotID, r1)

/-- `Unpark`: validate the vehicle number, require a `current` entry matching
the given spot ID, parse it, and release through the repository. -/
def unpark (r : InMemoryParkingRepository) (spotID vehicleNumber : String) :
    Except String Unit × InMemoryParkingRepository :=
  match validateVehicleNumber vehicleNumber with
  | Except.error e => (Except.error e, r)
  | Except.ok _ =>
    let (isParked, currentSpotID) := r.isVehicleParked vehicleNumber
    if !isParked then
      (Except.error (ErrVehicleNotParked ++ ": " ++ vehicleNumber), r)
    else if currentSpotID ≠ spotID then
      (Except.error (ErrVehicleNotAtSpot ++ ": " ++ vehicleNumber ++ " (expected: " ++
        spotID ++ ", actual: " ++ currentSpotID ++ ")"), r)
    else
      match r.parseSpotID spotID with
      | Except.error e => (Except.error e, r)
      | Except.ok (floor, row, column) =>
        r.unparkVehicle floor row column vehicleNumber

/-- `GetAvailableSpots` (service): validate the type, delegate. -/
def getAvailableSpots (r : InMemoryParkingRepository) (vehicleType : String) :
    Except String (List String) :=
  match validateVehicleType vehicleType with
  | Except.error e => Except.error e
  | Except.ok _ => InMemoryParkingRepository.getAvailableSpots r vehicleType

/-- `SearchVehicle` (service): validate the vehicle number, delegate. -/
def searchVehicle (r : InMemoryParkingRepository) (vehicleNumber : String) :
    Except String (String × Bool) :=
  match validateVehicleNumber vehicleNumber with
  | Except.error e => Except.error e
  | Except.ok _ => InMemoryParkingRepository.searchVehicle r vehicleNumber

end ParkingService

/-! ## Reachable states

The states the engine can be in: a fresh repository initialized once through
the service (the startup collaborator), then any sequence of service-level
`configureSpot`, `park` and `unpark` calls, successful or failed, with no
re-initialization. The query operations read the state without changing it,
so they need no step constructors. -/

inductive Reachable : InMemoryParkingRepository → Prop where
  | init (floors rows columns gates : Int) (r' : InMemoryParkingRepository)
      (h : ParkingService.initializeParkingLot newParkingRepository floors rows columns gates =
        (Except.ok (), r')) : Reachable r'
  | configure (r : InMemoryParkingRepository) (floor row column : Int) (spotType : String)
      (res : Except String Unit) (r' : InMemoryParkingRepository) (hr : Reachable r)
      (h : ParkingService.configureSpot r floor row column spotType = (res, r')) :
      Reachable r'
  | park (r : InMemoryParkingRepository) (vehicleType vehicleNumber : String)
      (res : Except String String) (r' : InMemoryParkingRepository) (hr : Reachable r)
      (h : ParkingService.park r vehicleType vehicleNumber = (res, r')) : Reachable r'
  | unpark (r : InMemoryParkingRepository) (spotID vehicleNumber : String)
      (res : Except String Unit) (r' : InMemoryParkingRepository) (hr : Reachable r)
      (h : ParkingService.unpark r spotID vehicleNumber = (res, r')) : Reachable r'

/-! ## Derived predicates used by the specification statements -/

/-- Lexicographic order on (floor, row, column) triples: the scan order's
notion of "earlier or equal". -/
def lexLE (p q : Nat × Nat × Nat) : Prop :=
  p.1 < q.1 ∨ (p.1 = q.1 ∧ (p.2.1 < q.2.1 ∨ (p.2.1 = q.2.1 ∧ p.2.2 ≤ q.2.2)))

/-- Strict lexicographic order on (floor, row, column) triples. -/
def lexLT (p q : Nat × Nat × Nat) : Prop :=
  p.1 < q.1 ∨ (p.1 = q.1 ∧ (p.2.1 < q.2.1 ∨ (p.2.1 = q.2.1 ∧ p.2.2 < q.2.2)))

/-- The spot at (floor, row, column) is inside the configured dimensions and
is active, of the requested type, and unoccupied: exactly the spots the
availability scan can select. -/
def spotAvailable (r : InMemoryParkingRepository) (vehicleType : String)
    (floor row column : Nat) : Bool :=
  decide (floor < r.floors.toNat) && decide (row < r.rows.toNat) &&
  decide (column < r.columns.toNat) && r.spotMatches vehicleType (floor, row, column)

/-- Does the error result carry the `VehicleAlreadyParked` message? (The Go
error wraps `ErrVehicleAlreadyParked` followed by diagnostics.) -/
def isAlreadyParkedError {α : Type} : Except String α → Bool
  | Except.error msg =>
    msg.data.take ErrVehicleAlreadyParked.data.length == ErrVehicleAlreadyParked.data
  | Except.ok _ => false

/-- Modelled from the spec: the exact `floor-row-column` wire pattern with
plain decimal integers — three nonempty digit runs separated by single
dashes, spanning the whole string, nothing else accepted (no leading
spaces, no signs, no trailing input). Stated from the spec's words for
comparison with the code's `Sscanf`-based parse. -/
def specPatternSpotID (s : String) : Option (Nat × Nat × Nat) :=
  match scanMagnitude s.data with
  | none => none
  | some (floor, r1) =>
    match scanLit '-' r1 with
    | none => none
    | some r2 =>
      match scanMagnitude r2 with
      | none => none
      | some (row, r3) =>
        match scanLit '-' r3 with
        | none => none
        | some r4 =>
          match scanMagnitude r4 with
          | none => none
          | some (column, rest) =>
            if rest = [] then some (floor, row, column) else none

/-! ## The state invariant -/

/-- The grid's list structure agrees with the stored dimensions. -/
def gridShape (r : InMemoryParkingRepository) : Prop :=
  r.spots.length = r.floors.toNat ∧
  ∀ fl ∈ r.spots, fl.length = r.rows.toNat ∧ ∀ rw ∈ fl, rw.length = r.columns.toNat

/-- The dimensions the service's initialization validation admits. -/
def dimsOK (r : InMemoryParkingRepository) : Prop :=
  (1 ≤ r.floors ∧ r.floors ≤ 8) ∧ (1 ≤ r.rows ∧ r.rows ≤ 1000) ∧
  (1 ≤ r.columns ∧ r.columns ≤ 1000)

/-- Per-spot invariant at in-grid coordinates: occupancy and the occupant
string agree, no inactive spot is occupied, and every occupied spot is
indexed in `vehicleMap` under its occupant, at its canonical spot ID. -/
def spotOK (r : InMemoryParkingRepository) (p : Nat × Nat × Nat) : Prop :=
  (((r.getSpotN p.1 p.2.1 p.2.2).isOccupied = true) ↔
    (r.getSpotN p.1 p.2.1 p.2.2).vehicleNumber ≠ "") ∧
  ((r.getSpotN p.1 p.2.1 p.2.2).isActive = false →
    (r.getSpotN p.1 p.2.1 p.2.2).isOccupied = false) ∧
  ((r.getSpotN p.1 p.2.1 p.2.2).isOccupied = true →
    mapLookup r.vehicleMap (r.getSpotN p.1 p.2.1 p.2.2).vehicleNumber =
      some (fmtSpotID (p.1 : Int) (p.2.1 : Int) (p.2.2 : Int)))

/-- Per-entry invariant of `vehicleMap`: the stored spot ID parses to
in-bounds coordinates, is canonical for them, and its spot is occupied by
exactly this vehicle. -/
def entryOK (r : InMemoryParkingRepository) (e : String × String) : Prop :=
  ∃ p : Nat × Nat × Nat,
    sscanfSpotID e.2 = some ((p.1 : Int), (p.2.1 : Int), (p.2.2 : Int)) ∧
    p.1 < r.floors.toNat ∧ p.2.1 < r.rows.toNat ∧ p.2.2 < r.columns.toNat ∧
    e.2 = fmtSpotID (p.1 : Int) (p.2.1 : Int) (p.2.2 : Int) ∧
    (r.getSpotN p.1 p.2.1 p.2.2).isOccupied = true ∧
    (r.getSpotN p.1 p.2.1 p.2.2).vehicleNumber = e.1

/-- The reachable-state invariant: dimensions in range, well-shaped grid,
every in-grid spot consistent, every `vehicleMap` entry consistent. -/
def Inv (r : InMemoryParkingRepository) : Prop :=
  dimsOK r ∧ gridShape r ∧
  (∀ floor row column : Nat, floor < r.floors.toNat → row < r.rows.toNat →
    column < r.columns.toNat → spotOK r (floor, row, column)) ∧
  (∀ e ∈ r.vehicleMap, entryOK r e)

/-! ## Concrete states: the spec's own seed scenario

A 1×1×2 lot with two bicycle spots (§8's scenario), stepped through the
service operations. Each state is reachable by construction. -/

/-- The lot after `initialize(1, 1, 2, 1)`. -/
def sample0 : InMemoryParkingRepository :=
  (ParkingService.initializeParkingLot newParkingRepository 1 1 2 1).2

/-- After `configureSpot(0,0,0,"B-1")`. -/
def sample1 : InMemoryParkingRepository :=
  (ParkingService.configureSpot sample0 0 0 0 "B-1").2

/-- After `configureSpot(0,0,1,"B-1")`: two free bicycle spots. -/
def sample2 : InMemoryParkingRepository :=
  (ParkingService.configureSpot sample1 0 0 1 "B-1").2

/-- After `park(Bicycle, "BC1")`: BC1 parked at `"0-0-0"`. -/
def sample3 : InMemoryParkingRepository :=
  (ParkingService.park sample2 Bicycle "BC1").2

/-- After `unpark("0-0-0", "BC1")`: BC1 in history only. -/
def sample4 : InMemoryParkingRepository :=
  (ParkingService.unpark sample3 "0-0-0" "BC1").2

/-- A 1×1×1 lot with a single free bicycle spot, for the interleaving run. -/
def raceLot : InMemoryParkingRepository :=
  (ParkingService.configureSpot
    (ParkingService.initializeParkingLot newParkingRepository 1 1 1 1).2 0 0 0 "B-1").2

/-- The state after the first of two racing `ParkVehicle` grid writes. -/
def raceMid : InMemoryParkingRepository :=
  (InMemoryParkingRepository.parkVehicle raceLot "0-0-0" "V1").2

/-! ## Lemmas: decimal formatting scans back to the same value -/

theorem isDigitCh_digitChar {d : Nat} (h : d < 10) : isDigitCh (digitChar d) = true := by
  interval_cases d <;> decide

theorem charValue_digitChar {d : Nat} (h : d < 10) : charValue (digitChar d) = d := by
  interval_cases d <;> decide

theorem not_space_of_digit {c : Char} (h : isDigitCh c = true) : isSpaceCh c = false := by
  by_contra hne
  rw [Bool.not_eq_false] at hne
  unfold isSpaceCh at hne
  simp only [Bool.or_eq_true, beq_iff_eq] at hne
  rcases hne with ((rfl | rfl) | rfl) | rfl <;> exact absurd h (by decide)

theorem ne_dash_of_digit {c : Char} (h : isDigitCh c = true) : c ≠ '-' := by
  rintro rfl; exact absurd h (by decide)

theorem ne_plus_of_digit {c : Char} (h : isDigitCh c = true) : c ≠ '+' := by
  rintro rfl; exact absurd h (by decide)

theorem scanDigitsAux_of_digits (fuel : Nat) :
    ∀ n acc a, n ≤ fuel →
      ∃ k : Nat, scanDigitsAux (natDigitsAux fuel n acc) a =
        scanDigitsAux acc (a * 10 ^ k + n) := by
  induction fuel with
  | zero =>
    intro n acc a hn
    interval_cases n
    refine ⟨1, ?_⟩
    show scanDigitsAux ('0' :: acc) a = scanDigitsAux acc (a * 10 ^ 1 + 0)
    simp [scanDigitsAux, show isDigitCh '0' = true from by decide,
      show charValue '0' = 0 from by decide]
  | succ fuel ih =>
    intro n acc a hn
    by_cases h10 : n < 10
    · refine ⟨1, ?_⟩
      have hm : n % 10 = n := Nat.mod_eq_of_lt h10
      simp only [natDigitsAux, if_pos h10]
      simp [scanDigitsAux, isDigitCh_digitChar h10, charValue_digitChar h10]
    · have hdiv : n / 10 ≤ fuel := by
        have := Nat.div_lt_self (by omega : 0 < n) (by norm_num : 1 < 10)
        omega
      obtain ⟨k, hk⟩ := ih (n / 10) (digitChar (n % 10) :: acc) a hdiv
      refine ⟨k + 1, ?_⟩
      have hmod : n % 10 < 10 := Nat.mod_lt _ (by norm_num)
      simp only [natDigitsAux, if_neg h10]
      rw [hk]
      simp only [scanDigitsAux, isDigitCh_digitChar hmod, if_pos,
        charValue_digitChar hmod]
      congr 1
      calc (a * 10 ^ k + n / 10) * 10 + n % 10
          = a * (10 ^ k * 10) + (10 * (n / 10) + n % 10) := by ring
        _ = a * 10 ^ (k + 1) + n := by rw [Nat.div_add_mod, pow_succ]

theorem scanDigitsAux_stop {acc : List Char}
    (h : ∀ c t, acc = c :: t → isDigitCh c = false) (a : Nat) :
    scanDigitsAux acc a = (a, acc) := by
  cases acc with
  | nil => rfl
  | cons c t => simp [scanDigitsAux, h c t rfl]

theorem natDigitsAux_head (fuel : Nat) :
    ∀ n acc, ∃ c t, natDigitsAux fuel n acc = c :: t ∧ isDigitCh c = true := by
  induction fuel with
  | zero =>
    intro n acc
    exact ⟨_, _, rfl, isDigitCh_digitChar (Nat.mod_lt _ (by norm_num))⟩
  | succ fuel ih =>
    intro n acc
    by_cases h10 : n < 10
    · refine ⟨digitChar n, acc, ?_, isDigitCh_digitChar h10⟩
      simp [natDigitsAux, if_pos h10]
    · simpa [natDigitsAux, if_neg h10] using ih (n / 10) (digitChar (n % 10) :: acc)

theorem scanMagnitude_digits (n : Nat) (rest : List Char)
    (hrest : ∀ c t, rest = c :: t → isDigitCh c = false) :
    scanMagnitude (natDigitsAux n n rest) = some (n, rest) := by
  obtain ⟨c, t, heq, hc⟩ := natDigitsAux_head n n rest
  obtain ⟨k, hk⟩ := scanDigitsAux_of_digits n n rest 0 le_rfl
  rw [heq] at hk
  rw [scanDigitsAux_stop hrest] at hk
  simp only [scanDigitsAux, hc, if_pos, Nat.zero_mul, Nat.zero_add] at hk
  rw [heq]
  simp [scanMagnitude, hc, hk]

theorem skipSpacesCh_of_digit {c : Char} {t : List Char} (hc : isDigitCh c = true) :
    skipSpacesCh (c :: t) = c :: t := by
  simp [skipSpacesCh, not_space_of_digit hc]

theorem scanGoInt_digits (n : Nat) (rest : List Char) (hn : n < 2 ^ 63)
    (hrest : ∀ c t, rest = c :: t → isDigitCh c = false) :
    scanGoInt (natDigitsAux n n rest) = some ((n : Int), rest) := by
  obtain ⟨c, t, heq, hc⟩ := natDigitsAux_head n n rest
  have hmag := scanMagnitude_digits n rest hrest
  rw [heq] at hmag ⊢
  unfold scanGoInt
  rw [skipSpacesCh_of_digit hc]
  simp only [if_neg (ne_dash_of_digit hc), if_neg (ne_plus_of_digit hc), hmag]
  rw [if_pos (by exact_mod_cast hn)]

theorem natDigitsAux_append (fuel : Nat) :
    ∀ n acc, natDigitsAux fuel n acc = natDigitsAux fuel n [] ++ acc := by
  induction fuel with
  | zero => intro n acc; rfl
  | succ fuel ih =>
    intro n acc
    by_cases h10 : n < 10
    · simp [natDigitsAux, if_pos h10]
    · simp only [natDigitsAux, if_neg h10]
      rw [ih (n / 10) (digitChar (n % 10) :: acc), ih (n / 10) [digitChar (n % 10)]]
      simp

theorem fmtSpotID_data (f r c : Nat) :
    (fmtSpotID (f : Int) (r : Int) (c : Int)).data =
      natDigitsAux f f ('-' :: natDigitsAux r r ('-' :: natDigitsAux c c [])) := by
  have hnat : ∀ n : Nat, goIntStr (n : Int) = goNatStr n := by
    intro n
    simp [goIntStr, Int.toNat_natCast]
  simp only [fmtSpotID, hnat, goNatStr]
  simp only [String.data_append]
  rw [natDigitsAux_append f f ('-' :: natDigitsAux r r ('-' :: natDigitsAux c c [])),
    natDigitsAux_append r r ('-' :: natDigitsAux c c [])]
  simp [List.append_assoc]

theorem sscanfSpotID_fmt (f r c : Nat) (hf : f < 2 ^ 63) (hr : r < 2 ^ 63)
    (hc : c < 2 ^ 63) :
    sscanfSpotID (fmtSpotID (f : Int) (r : Int) (c : Int)) =
      some ((f : Int), (r : Int), (c : Int)) := by
  have hdash : ∀ t : List Char, ∀ c' t', ('-' :: t : List Char) = c' :: t' →
      isDigitCh c' = false := by
    rintro t c' t' ⟨rfl, rfl⟩
    decide
  have hnil : ∀ c' t', ([] : List Char) = c' :: t' → isDigitCh c' = false := by
    intro c' t' h
    exact absurd h (by simp)
  have h1 := scanGoInt_digits f ('-' :: natDigitsAux r r ('-' :: natDigitsAux c c []))
    hf (hdash _)
  have h2 := scanGoInt_digits r ('-' :: natDigitsAux c c []) hr (hdash _)
  have h3 := scanGoInt_digits c [] hc hnil
  unfold sscanfSpotID
  rw [fmtSpotID_data, h1]
  simp [scanLit, h2, h3]

/-! ## Lemmas: association-list maps -/

theorem mapLookup_insert_self (m : List (String × String)) (k v : String) :
    mapLookup (mapInsert m k v) k = some v := by
  simp [mapInsert, mapLookup]

theorem mapErase_cons (a b k : String) (t : List (String × String)) :
    mapErase ((a, b) :: t) k =
      if a = k then mapErase t k else (a, b) :: mapErase t k := by
  by_cases ha : a = k
  · rw [if_pos ha]
    simp [mapErase, List.filter_cons, ha]
  · rw [if_neg ha]
    simp [mapErase, List.filter_cons, ha]

theorem mapLookup_cons (a b k : String) (t : List (String × String)) :
    mapLookup ((a, b) :: t) k = if a = k then some b else mapLookup t k := rfl

theorem mapLookup_erase_ne (m : List (String × String)) {k k' : String} (h : k ≠ k') :
    mapLookup (mapErase m k) k' = mapLookup m k' := by
  induction m with
  | nil => rfl
  | cons p t ih =>
    obtain ⟨a, b⟩ := p
    rw [mapErase_cons, mapLookup_cons]
    by_cases ha : a = k
    · rw [if_pos ha, if_neg (ha ▸ h), ih]
    · rw [if_neg ha, mapLookup_cons]
      by_cases ha' : a = k'
      · rw [if_pos ha', if_pos ha']
      · rw [if_neg ha', if_neg ha', ih]

theorem mapLookup_erase_self (m : List (String × String)) (k : String) :
    mapLookup (mapErase m k) k = none := by
  induction m with
  | nil => rfl
  | cons p t ih =>
    obtain ⟨a, b⟩ := p
    rw [mapErase_cons]
    by_cases ha : a = k
    · rw [if_pos ha]
      exact ih
    · rw [if_neg ha, mapLookup_cons, if_neg ha]
      exact ih

theorem mapLookup_insert_ne (m : List (String × String)) {k k' : String}
    (v : String) (h : k ≠ k') :
    mapLookup (mapInsert m k v) k' = mapLookup m k' := by
  simp only [mapInsert, mapLookup, if_neg h]
  exact mapLookup_erase_ne m h

theorem mem_mapErase {m : List (String × String)} {k : String} {e : String × String} :
    e ∈ mapErase m k ↔ e ∈ m ∧ e.1 ≠ k := by
  simp [mapErase, List.mem_filter]

theorem mem_mapInsert {m : List (String × String)} {k v : String} {e : String × String} :
    e ∈ mapInsert m k v ↔ e = (k, v) ∨ (e ∈ m ∧ e.1 ≠ k) := by
  simp [mapInsert, mem_mapErase]

theorem mem_of_mapLookup {m : List (String × String)} {k v : String}
    (h : mapLookup m k = some v) : (k, v) ∈ m := by
  induction m with
  | nil => simp [mapLookup] at h
  | cons p t ih =>
    obtain ⟨a, b⟩ := p
    rw [mapLookup_cons] at h
    by_cases ha : a = k
    · rw [if_pos ha] at h
      subst ha
      obtain rfl : b = v := by injection h
      exact List.mem_cons_self _ _
    · rw [if_neg ha] at h
      exact List.mem_cons_of_mem _ (ih h)

/-! ## Lemmas: the 3-D grid -/

theorem getD_set {α : Type} (l : List α) (i j : Nat) (a d : α) :
    (l.set i a).getD j d = if i = j ∧ j < l.length then a else l.getD j d := by
  induction l generalizing i j with
  | nil => simp [List.set]
  | cons x t ih =>
    cases i with
    | zero =>
      cases j with
      | zero => simp
      | succ j => simp
    | succ i =>
      cases j with
      | zero => simp
      | succ j =>
        simp only [List.set, List.getD_cons_succ, List.length_cons, ih i j]
        by_cases hij : i = j ∧ j < t.length
        · rw [if_pos hij, if_pos (by omega)]
        · rw [if_neg hij, if_neg (by omega)]

theorem getD_set_self_of_lt {α : Type} (l : List α) (i : Nat) (a d : α)
    (h : i < l.length) : (l.set i a).getD i d = a := by
  rw [getD_set, if_pos ⟨rfl, h⟩]

theorem getD_set_self_of_ge {α : Type} (l : List α) (i : Nat) (a d : α)
    (h : ¬ i < l.length) : (l.set i a).getD i d = l.getD i d := by
  rw [getD_set, if_neg (fun hx => h hx.2)]

theorem getD_set_ne {α : Type} (l : List α) {i j : Nat} (a d : α)
    (h : i ≠ j) : (l.set i a).getD j d = l.getD j d := by
  rw [getD_set, if_neg (fun hx => h hx.1)]

namespace InMemoryParkingRepository

theorem getSpotN_setSpotN_self (r : InMemoryParkingRepository) (f row col : Nat)
    (s : ParkingSpot) (hf : f < r.spots.length)
    (hrow : row < (r.spots.getD f []).length)
    (hcol : col < ((r.spots.getD f []).getD row []).length) :
    (r.setSpotN f row col s).getSpotN f row col = s := by
  show ((((r.spots.set f ((r.spots.getD f []).set row
    (((r.spots.getD f []).getD row []).set col s))).getD f []).getD row []).getD col
      defaultSpot) = s
  rw [getD_set_self_of_lt _ _ _ _ hf, getD_set_self_of_lt _ _ _ _ hrow,
    getD_set_self_of_lt _ _ _ _ hcol]

theorem getSpotN_setSpotN_ne (r : InMemoryParkingRepository) (f row col f' row' col' : Nat)
    (s : ParkingSpot) (h : ¬(f = f' ∧ row = row' ∧ col = col')) :
    (r.setSpotN f row col s).getSpotN f' row' col' = r.getSpotN f' row' col' := by
  show ((((r.spots.set f ((r.spots.getD f []).set row
    (((r.spots.getD f []).getD row []).set col s))).getD f' []).getD row' []).getD col'
      defaultSpot) = r.getSpotN f' row' col'
  unfold getSpotN
  rcases eq_or_ne f f' with rfl | hff
  · by_cases hlen : f < r.spots.length
    · rw [getD_set_self_of_lt _ _ _ _ hlen]
      rcases eq_or_ne row row' with rfl | hrr
      · by_cases hrlen : row < (r.spots.getD f []).length
        · rw [getD_set_self_of_lt _ _ _ _ hrlen]
          have hcc : col ≠ col' := fun hc => h ⟨rfl, rfl, hc⟩
          rw [getD_set_ne _ _ _ hcc]
        · rw [getD_set_self_of_ge _ _ _ _ hrlen]
      · rw [getD_set_ne _ _ _ hrr]
    · rw [getD_set_self_of_ge _ _ _ _ hlen]
  · rw [getD_set_ne _ _ _ hff]

theorem spots_length_setSpotN (r : InMemoryParkingRepository) (f row col : Nat)
    (s : ParkingSpot) : (r.setSpotN f row col s).spots.length = r.spots.length := by
  simp [setSpotN]

theorem getD_mem {α : Type} {l : List α} {i : Nat} {d : α} (h : i < l.length) :
    l.getD i d ∈ l := by
  induction l generalizing i with
  | nil => simp at h
  | cons x t ih =>
    cases i with
    | zero => simp
    | succ i =>
      simp only [List.getD_cons_succ]
      exact List.mem_cons_of_mem _ (ih (by simpa using h))

theorem mem_of_mem_set {α : Type} {l : List α} {i : Nat} {a b : α}
    (h : a ∈ l.set i b) : a ∈ l ∨ a = b := by
  induction l generalizing i with
  | nil => simp [List.set] at h
  | cons x t ih =>
    cases i with
    | zero =>
      rcases List.mem_cons.mp h with rfl | h'
      · exact Or.inr rfl
      · exact Or.inl (List.mem_cons_of_mem _ h')
    | succ i =>
      rcases List.mem_cons.mp h with rfl | h'
      · exact Or.inl (List.mem_cons_self _ _)
      · rcases ih h' with h'' | rfl
        · exact Or.inl (List.mem_cons_of_mem _ h'')
        · exact Or.inr rfl

theorem gridShape_setSpotN {r : InMemoryParkingRepository} {f row : Nat} (col : Nat)
    (s : ParkingSpot) (h : gridShape r) (hf : f < r.floors.toNat)
    (hrow : row < r.rows.toNat) : gridShape (r.setSpotN f row col s) := by
  obtain ⟨hlen, hmem⟩ := h
  have hf' : f < r.spots.length := by rw [hlen]; exact hf
  have hflrec := hmem _ (getD_mem hf' : r.spots.getD f [] ∈ r.spots)
  have hrow' : row < (r.spots.getD f []).length := by rw [hflrec.1]; exact hrow
  refine ⟨by simpa [setSpotN] using hlen, ?_⟩
  intro fl hfl'
  simp only [setSpotN] at hfl'
  rcases mem_of_mem_set hfl' with hmem' | rfl
  · exact hmem fl hmem'
  · refine ⟨by rw [List.length_set]; exact hflrec.1, ?_⟩
    intro rw' hrw'
    rcases mem_of_mem_set hrw' with hmem'' | rfl
    · exact hflrec.2 rw' hmem''
    · rw [List.length_set]
      exact hflrec.2 _ (getD_mem hrow')

theorem mem_coordList {r : InMemoryParkingRepository} {p : Nat × Nat × Nat} :
    p ∈ r.coordList ↔
      p.1 < r.floors.toNat ∧ p.2.1 < r.rows.toNat ∧ p.2.2 < r.columns.toNat := by
  obtain ⟨f, row, col⟩ := p
  simp only [coordList, List.mem_flatMap, List.mem_map, List.mem_range]
  constructor
  · rintro ⟨a, ha, b, hb, c, hc, h⟩
    obtain ⟨rfl, rfl, rfl⟩ : a = f ∧ b = row ∧ c = col := by
      injection h with h1 h2
      injection h2 with h2 h3
      exact ⟨h1, h2, h3⟩
    exact ⟨ha, hb, hc⟩
  · rintro ⟨hf, hrow, hcol⟩
    exact ⟨f, hf, row, hrow, col, hcol, rfl⟩

theorem coordList_pairwise (r : InMemoryParkingRepository) :
    r.coordList.Pairwise lexLT := by
  unfold coordList
  rw [List.pairwise_flatMap]
  constructor
  · intro a _
    rw [List.pairwise_flatMap]
    constructor
    · intro b _
      rw [List.pairwise_map]
      refine (List.pairwise_lt_range _).imp ?_
      intro c c' hcc
      exact Or.inr ⟨rfl, Or.inr ⟨rfl, hcc⟩⟩
    · refine (List.pairwise_lt_range _).imp ?_
      intro b b' hbb x hx y hy
      simp only [List.mem_map] at hx hy
      obtain ⟨c, _, rfl⟩ := hx
      obtain ⟨c', _, rfl⟩ := hy
      exact Or.inr ⟨rfl, Or.inl hbb⟩
  · refine (List.pairwise_lt_range _).imp ?_
    intro a a' haa x hx y hy
    simp only [List.mem_flatMap, List.mem_map, List.mem_range] at hx hy
    obtain ⟨b, _, c, _, rfl⟩ := hx
    obtain ⟨b', _, c', _, rfl⟩ := hy
    exact Or.inl haa

end InMemoryParkingRepository

/-- The first element `find?` returns on a strictly sorted list is a least
satisfying element. -/
theorem find?_min {α : Type} {R : α → α → Prop} {p : α → Bool} {a : α} :
    ∀ {l : List α}, l.Pairwise R → l.find? p = some a →
      ∀ b ∈ l, p b = true → a = b ∨ R a b := by
  intro l
  induction l with
  | nil => simp
  | cons x t ih =>
    intro hpw hfind b hb hpb
    rw [List.find?_cons] at hfind
    rcases List.pairwise_cons.mp hpw with ⟨hx, ht⟩
    cases hpx : p x with
    | true =>
      rw [hpx] at hfind
      obtain rfl : x = a := Option.some.inj hfind
      rcases List.mem_cons.mp hb with rfl | hb'
      · exact Or.inl rfl
      · exact Or.inr (hx b hb')
    | false =>
      rw [hpx] at hfind
      rcases List.mem_cons.mp hb with rfl | hb'
      · rw [hpb] at hpx; exact absurd hpx (by simp)
      · exact ih ht hfind b hb' hpb

namespace InMemoryParkingRepository

/-- The parse of a canonically formatted in-bounds spot ID recovers its
coordinates (dimensions within the service's validated ranges keep every
coordinate far below the 64-bit limit). -/
theorem parseSpotID_fmt (r : InMemoryParkingRepository) (f row col : Nat)
    (hval : r.isValidLocation (f : Int) (row : Int) (col : Int) = true)
    (hfl : r.floors ≤ 2 ^ 63) (hrw : r.rows ≤ 2 ^ 63) (hcl : r.columns ≤ 2 ^ 63) :
    r.parseSpotID (fmtSpotID (f : Int) (row : Int) (col : Int)) =
      Except.ok ((f : Int), (row : Int), (col : Int)) := by
  have hval' := hval
  simp only [isValidLocation, Bool.and_eq_true, decide_eq_true_eq] at hval'
  have hf : f < 2 ^ 63 := by omega
  have hr : row < 2 ^ 63 := by omega
  have hc : col < 2 ^ 63 := by omega
  unfold parseSpotID
  rw [sscanfSpotID_fmt f row col hf hr hc]
  simp [hval]

end InMemoryParkingRepository

/-! ## Lemmas: the availability scan returns the least available coordinate -/

theorem lexLE_of_lexLT {p q : Nat × Nat × Nat} (h : lexLT p q) : lexLE p q := by
  obtain ⟨a, b, c⟩ := p
  obtain ⟨a', b', c'⟩ := q
  unfold lexLT at h
  unfold lexLE
  simp only at h ⊢
  omega

theorem lexLE_refl (p : Nat × Nat × Nat) : lexLE p p :=
  Or.inr ⟨rfl, Or.inr ⟨rfl, le_refl _⟩⟩

theorem lexLE_antisymm {p q : Nat × Nat × Nat} (h1 : lexLE p q) (h2 : lexLE q p) :
    p = q := by
  obtain ⟨a, b, c⟩ := p
  obtain ⟨a', b', c'⟩ := q
  unfold lexLE at h1 h2
  simp only at h1 h2
  have h3 : a = a' ∧ b = b' ∧ c = c' := by omega
  simp [h3.1, h3.2.1, h3.2.2]

namespace InMemoryParkingRepository

theorem spotAvailable_iff {r : InMemoryParkingRepository} {vt : String}
    {f row col : Nat} :
    spotAvailable r vt f row col = true ↔
      (f, row, col) ∈ r.coordList ∧ r.spotMatches vt (f, row, col) = true := by
  simp only [spotAvailable, Bool.and_eq_true, decide_eq_true_eq, mem_coordList]
  tauto

theorem findAvailableSpot_ok_iff (r : InMemoryParkingRepository) (vt sid : String) :
    r.findAvailableSpot vt = Except.ok sid ↔
      ∃ f row col : Nat, spotAvailable r vt f row col = true ∧
        sid = fmtSpotID (f : Int) (row : Int) (col : Int) ∧
        ∀ f' row' col' : Nat, spotAvailable r vt f' row' col' = true →
          lexLE (f, row, col) (f', row', col') := by
  unfold findAvailableSpot
  constructor
  · intro h
    cases hfind : (r.coordList).find? (r.spotMatches vt) with
    | none => rw [hfind] at h; exact absurd h (by simp)
    | some q =>
      rw [hfind] at h
      obtain ⟨f, row, col⟩ := q
      obtain rfl : fmtSpotID (f : Int) (row : Int) (col : Int) = sid := by
        injection h
      refine ⟨f, row, col, ?_, rfl, ?_⟩
      · exact spotAvailable_iff.mpr
          ⟨List.mem_of_find?_eq_some hfind, List.find?_some hfind⟩
      · intro f' row' col' h'
        obtain ⟨hmem', hmatch'⟩ := spotAvailable_iff.mp h'
        rcases find?_min (coordList_pairwise r) hfind _ hmem' hmatch' with heq | hlt
        · rw [heq]
          exact lexLE_refl _
        · exact lexLE_of_lexLT hlt
  · rintro ⟨f, row, col, havail, rfl, hmin⟩
    obtain ⟨hmem, hmatch⟩ := spotAvailable_iff.mp havail
    cases hfind : (r.coordList).find? (r.spotMatches vt) with
    | none =>
      rw [List.find?_eq_none] at hfind
      exact absurd hmatch (hfind _ hmem)
    | some q =>
      obtain ⟨qa, qb, qc⟩ := q
      have hqavail : spotAvailable r vt qa qb qc = true :=
        spotAvailable_iff.mpr
          ⟨List.mem_of_find?_eq_some hfind, List.find?_some hfind⟩
      have h1 : lexLE (f, row, col) (qa, qb, qc) := hmin _ _ _ hqavail
      have h2 : lexLE (qa, qb, qc) (f, row, col) := by
        rcases find?_min (coordList_pairwise r) hfind _ hmem hmatch with heq | hlt
        · rw [heq]
          exact lexLE_refl _
        · exact lexLE_of_lexLT hlt
      have heq := lexLE_antisymm h1 h2
      obtain ⟨rfl, rfl, rfl⟩ : f = qa ∧ row = qb ∧ col = qc := by
        injection heq with ha hbc
        injection hbc with hb hc
        exact ⟨ha, hb, hc⟩
      rfl

theorem findAvailableSpot_err_iff (r : InMemoryParkingRepository) (vt : String) :
    r.findAvailableSpot vt = Except.error ErrNoAvailableSpot ↔
      ∀ f row col : Nat, ¬ spotAvailable r vt f row col = true := by
  unfold findAvailableSpot
  constructor
  · intro h f row col havail
    obtain ⟨hmem, hmatch⟩ := spotAvailable_iff.mp havail
    cases hfind : (r.coordList).find? (r.spotMatches vt) with
    | none =>
      rw [List.find?_eq_none] at hfind
      exact hfind _ hmem hmatch
    | some q =>
      rw [hfind] at h
      obtain ⟨a, b, c⟩ := q
      exact absurd h (by simp)
  · intro h
    cases hfind : (r.coordList).find? (r.spotMatches vt) with
    | none => rfl
    | some q =>
      have hqavail : spotAvailable r vt q.1 q.2.1 q.2.2 = true :=
        spotAvailable_iff.mpr
          ⟨List.mem_of_find?_eq_some hfind, List.find?_some hfind⟩
      exact absurd hqavail (h _ _ _)

end InMemoryParkingRepository

/-! ## Lemmas: how each service operation transforms the state -/

open InMemoryParkingRepository

theorem isVehicleParked_eq (r : InMemoryParkingRepository) (v : String) :
    r.isVehicleParked v =
      match mapLookup r.vehicleMap v with
      | some spotID => (true, spotID)
      | none => (false, "") := rfl

/-- A successful `Park` decomposes into its three repository steps. -/
theorem park_ok {r r' : InMemoryParkingRepository} {vt v sid : String}
    (h : ParkingService.park r vt v = (Except.ok sid, r')) :
    (vt = Bicycle ∨ vt = Motorcycle ∨ vt = Automobile) ∧ v ≠ "" ∧
      mapLookup r.vehicleMap v = none ∧
      r.findAvailableSpot vt = Except.ok sid ∧
      r.parkVehicle sid v = (Except.ok (), r') := by
  unfold ParkingService.park at h
  by_cases ht : vt = Bicycle ∨ vt = Motorcycle ∨ vt = Automobile
  case neg =>
    rw [ParkingService.validateVehicleType, if_neg ht] at h
    exact absurd h (by simp)
  rw [ParkingService.validateVehicleType, if_pos ht] at h
  by_cases hv : v = ""
  case pos =>
    rw [ParkingService.validateVehicleNumber, if_pos hv] at h
    exact absurd h (by simp)
  rw [ParkingService.validateVehicleNumber, if_neg hv] at h
  cases hlook : mapLookup r.vehicleMap v with
  | some s0 =>
    rw [isVehicleParked_eq, hlook] at h
    dsimp only at h
    rw [if_pos rfl] at h
    exact absurd h (by simp)
  | none =>
    rw [isVehicleParked_eq, hlook] at h
    dsimp only at h
    rw [if_neg (by simp : ¬ (false = true))] at h
    cases hfind : r.findAvailableSpot vt with
    | error e =>
      rw [hfind] at h
      exact absurd h (by simp)
    | ok sid' =>
      rw [hfind] at h
      dsimp only at h
      cases hpark : r.parkVehicle sid' v with
      | mk res r1 =>
        rw [hpark] at h
        cases res with
        | error e => exact absurd h (by simp)
        | ok u =>
          simp only [Prod.mk.injEq, Except.ok.injEq] at h
          obtain ⟨rfl, rfl⟩ := h
          exact ⟨ht, hv, rfl, rfl, hpark⟩

/-- A failed `Park` leaves the state unchanged. -/
theorem park_err {r r' : InMemoryParkingRepository} {vt v e : String}
    (h : ParkingService.park r vt v = (Except.error e, r')) : r' = r := by
  unfold ParkingService.park at h
  by_cases ht : vt = Bicycle ∨ vt = Motorcycle ∨ vt = Automobile
  case neg =>
    rw [ParkingService.validateVehicleType, if_neg ht] at h
    simp only [Prod.mk.injEq] at h
    exact h.2.symm
  rw [ParkingService.validateVehicleType, if_pos ht] at h
  by_cases hv : v = ""
  case pos =>
    rw [ParkingService.validateVehicleNumber, if_pos hv] at h
    simp only [Prod.mk.injEq] at h
    exact h.2.symm
  rw [ParkingService.validateVehicleNumber, if_neg hv] at h
  cases hlook : mapLookup r.vehicleMap v with
  | some s0 =>
    rw [isVehicleParked_eq, hlook] at h
    dsimp only at h
    rw [if_pos rfl] at h
    simp only [Prod.mk.injEq] at h
    exact h.2.symm
  | none =>
    rw [isVehicleParked_eq, hlook] at h
    dsimp only at h
    rw [if_neg (by simp : ¬ (false = true))] at h
    cases hfind : r.findAvailableSpot vt with
    | error e' =>
      rw [hfind] at h
      simp only [Prod.mk.injEq] at h
      exact h.2.symm
    | ok sid' =>
      rw [hfind] at h
      dsimp only at h
      cases hpark : r.parkVehicle sid' v with
      | mk res r1 =>
        rw [hpark] at h
        cases res with
        | ok u => exact absurd h (by simp)
        | error e' =>
          simp only [Prod.mk.injEq] at h
          -- a failing ParkVehicle fails in the parse, before any mutation
          unfold parkVehicle at hpark
          cases hparse : r.parseSpotID sid' with
          | error e2 =>
            rw [hparse] at hpark
            dsimp only at hpark
            simp only [Prod.mk.injEq] at hpark
            rw [h.2.symm, ← hpark.2]
          | ok fc =>
            obtain ⟨fl, rw2, cl⟩ := fc
            rw [hparse] at hpark
            dsimp only at hpark
            exact absurd hpark (by simp)

/-- A successful `ParkVehicle` writes exactly one spot and one map entry. -/
theorem parkVehicle_ok_state {r r' : InMemoryParkingRepository} {sid v : String}
    {fl rw cl : Int} (hparse : r.parseSpotID sid = Except.ok (fl, rw, cl))
    (h : r.parkVehicle sid v = (Except.ok (), r')) :
    r' = { r.setSpot fl rw cl
      { r.getSpot fl rw cl with isOccupied := true, vehicleNumber := v } with
        vehicleMap := mapInsert r.vehicleMap v sid } := by
  unfold InMemoryParkingRepository.parkVehicle at h
  rw [hparse] at h
  dsimp only at h
  simp only [Prod.mk.injEq] at h
  exact h.2.symm

/-- A successful `UnparkVehicle` requires the matching occupant and clears
exactly one spot, one `current` entry and writes one `history` entry. -/
theorem unparkVehicle_ok_state {r r' : InMemoryParkingRepository}
    {fl rw cl : Int} {v : String}
    (h : r.unparkVehicle fl rw cl v = (Except.ok (), r')) :
    r.isValidLocation fl rw cl = true ∧
    (r.getSpot fl rw cl).isOccupied = true ∧
    (r.getSpot fl rw cl).vehicleNumber = v ∧
    r' = { r.setSpot fl rw cl
      { r.getSpot fl rw cl with isOccupied := false, vehicleNumber := "" } with
        vehicleHistory := mapInsert r.vehicleHistory v
          (goIntStr fl ++ "-" ++ goIntStr rw ++ "-" ++ goIntStr cl)
        vehicleMap := mapErase r.vehicleMap v } := by
  unfold InMemoryParkingRepository.unparkVehicle at h
  cases hval : r.isValidLocation fl rw cl with
  | false =>
    rw [hval] at h
    rw [if_pos (by decide : (!false) = true)] at h
    exact absurd h (by simp)
  | true =>
    rw [hval] at h
    rw [if_neg (by decide : ¬ ((!true) = true))] at h
    dsimp only at h
    cases hc : (!(r.getSpot fl rw cl).isOccupied ||
        ((r.getSpot fl rw cl).vehicleNumber != v)) with
    | true =>
      rw [hc] at h
      rw [if_pos rfl] at h
      exact absurd h (by simp)
    | false =>
      rw [hc] at h
      rw [if_neg (by decide : ¬ (false = true))] at h
      simp only [Bool.or_eq_false_iff, Bool.not_eq_false',
        bne_eq_false_iff_eq] at hc
      simp only [Prod.mk.injEq] at h
      exact ⟨rfl, hc.1, hc.2, h.2.symm⟩

/-- A failed `UnparkVehicle` leaves the state unchanged. -/
theorem unparkVehicle_err {r r' : InMemoryParkingRepository}
    {fl rw cl : Int} {v e : String}
    (h : r.unparkVehicle fl rw cl v = (Except.error e, r')) : r' = r := by
  unfold InMemoryParkingRepository.unparkVehicle at h
  cases hval : r.isValidLocation fl rw cl with
  | false =>
    rw [hval] at h
    rw [if_pos (by decide : (!false) = true)] at h
    simp only [Prod.mk.injEq] at h
    exact h.2.symm
  | true =>
    rw [hval] at h
    rw [if_neg (by decide : ¬ ((!true) = true))] at h
    dsimp only at h
    cases hc : (!(r.getSpot fl rw cl).isOccupied ||
        ((r.getSpot fl rw cl).vehicleNumber != v)) with
    | true =>
      rw [hc] at h
      rw [if_pos rfl] at h
      simp only [Prod.mk.injEq] at h
      exact h.2.symm
    | false =>
      rw [hc] at h
      rw [if_neg (by decide : ¬ (false = true))] at h
      exact absurd h (by simp)

/-- A successful `Unpark` decomposes into its repository steps. -/
theorem unpark_ok {r r' : InMemoryParkingRepository} {sid v : String}
    (h : ParkingService.unpark r sid v = (Except.ok (), r')) :
    v ≠ "" ∧ mapLookup r.vehicleMap v = some sid ∧
      ∃ fl rw cl : Int, r.parseSpotID sid = Except.ok (fl, rw, cl) ∧
        r.unparkVehicle fl rw cl v = (Except.ok (), r') := by
  unfold ParkingService.unpark at h
  by_cases hv : v = ""
  case pos =>
    rw [ParkingService.validateVehicleNumber, if_pos hv] at h
    exact absurd h (by simp)
  rw [ParkingService.validateVehicleNumber, if_neg hv] at h
  cases hlook : mapLookup r.vehicleMap v with
  | none =>
    rw [isVehicleParked_eq, hlook] at h
    dsimp only at h
    rw [if_pos (by decide : (!false) = true)] at h
    exact absurd h (by simp)
  | some s0 =>
    rw [isVehicleParked_eq, hlook] at h
    dsimp only at h
    rw [if_neg (by decide : ¬ ((!true) = true))] at h
    by_cases hs : s0 = sid
    case neg =>
      rw [if_pos (by simpa using Ne.symm (fun hx => hs hx.symm))] at h
      exact absurd h (by simp)
    subst hs
    rw [if_neg (by simp)] at h
    cases hparse : r.parseSpotID s0 with
    | error e2 =>
      rw [hparse] at h
      exact absurd h (by simp)
    | ok fc =>
      obtain ⟨fl, rw2, cl⟩ := fc
      rw [hparse] at h
      exact ⟨hv, rfl, fl, rw2, cl, rfl, h⟩

/-- A failed `Unpark` leaves the state unchanged. -/
theorem unpark_err {r r' : InMemoryParkingRepository} {sid v e : String}
    (h : ParkingService.unpark r sid v = (Except.error e, r')) : r' = r := by
  unfold ParkingService.unpark at h
  by_cases hv : v = ""
  case pos =>
    rw [ParkingService.validateVehicleNumber, if_pos hv] at h
    simp only [Prod.mk.injEq] at h
    exact h.2.symm
  rw [ParkingService.validateVehicleNumber, if_neg hv] at h
  cases hlook : mapLookup r.vehicleMap v with
  | none =>
    rw [isVehicleParked_eq, hlook] at h
    dsimp only at h
    rw [if_pos (by decide : (!false) = true)] at h
    simp only [Prod.mk.injEq] at h
    exact h.2.symm
  | some s0 =>
    rw [isVehicleParked_eq, hlook] at h
    dsimp only at h
    rw [if_neg (by decide : ¬ ((!true) = true))] at h
    by_cases hs : s0 ≠ sid
    case pos =>
      rw [if_pos hs] at h
      simp only [Prod.mk.injEq] at h
      exact h.2.symm
    rw [if_neg hs] at h
    cases hparse : r.parseSpotID sid with
    | error e2 =>
      rw [hparse] at h
      simp only [Prod.mk.injEq] at h
      exact h.2.symm
    | ok fc =>
      obtain ⟨fl, rw2, cl⟩ := fc
      rw [hparse] at h
      exact unparkVehicle_err h

/-- `ConfigureSpot` (service) either leaves the state unchanged or rewrites
the type/active flags of one unoccupied, in-bounds spot. -/
theorem configureSpot_cases {r r' : InMemoryParkingRepository}
    {fl rw cl : Int} {code : String} {res : Except String Unit}
    (h : ParkingService.configureSpot r fl rw cl code = (res, r')) :
    r' = r ∨ (r.isValidLocation fl rw cl = true ∧
      (r.getSpot fl rw cl).isOccupied = false ∧
      ∃ vt act, ParkingService.spotTypeTable code = some (vt, act) ∧ res = Except.ok () ∧
        r' = r.setSpot fl rw cl
          { r.getSpot fl rw cl with vehicleType := vt, isActive := act }) := by
  unfold ParkingService.configureSpot at h
  cases hval : r.isValidLocation fl rw cl with
  | false =>
    rw [hval] at h
    rw [if_pos (by decide : (!false) = true)] at h
    simp only [Prod.mk.injEq] at h
    exact Or.inl h.2.symm
  | true =>
    rw [hval] at h
    rw [if_neg (by decide : ¬ ((!true) = true))] at h
    rw [show r.isSpotOccupied fl rw cl = Except.ok (r.getSpot fl rw cl).isOccupied by
      unfold InMemoryParkingRepository.isSpotOccupied
      rw [hval]
      rw [if_neg (by decide : ¬ ((!true) = true))]] at h
    dsimp only at h
    cases hocc : (r.getSpot fl rw cl).isOccupied with
    | true =>
      rw [hocc] at h
      rw [if_pos rfl] at h
      simp only [Prod.mk.injEq] at h
      exact Or.inl h.2.symm
    | false =>
      rw [hocc] at h
      rw [if_neg (by simp)] at h
      cases hcode : ParkingService.spotTypeTable code with
      | none =>
        rw [hcode] at h
        simp only [Prod.mk.injEq] at h
        exact Or.inl h.2.symm
      | some p =>
        obtain ⟨vt, act⟩ := p
        rw [hcode] at h
        unfold InMemoryParkingRepository.configureSpot at h
        rw [hval] at h
        dsimp only at h
        rw [if_neg (by decide : ¬ ((!true) = true))] at h
        simp only [Prod.mk.injEq] at h
        exact Or.inr ⟨rfl, rfl, vt, act, rfl, h.1.symm, h.2.symm⟩

/-- A successful service `InitializeParkingLot` validated its dimension
ranges and replaced the grid, keeping both vehicle maps. -/
theorem initialize_ok {r r' : InMemoryParkingRepository} {fl rw cl g : Int}
    (h : ParkingService.initializeParkingLot r fl rw cl g = (Except.ok (), r')) :
    (1 ≤ fl ∧ fl ≤ 8) ∧ (1 ≤ rw ∧ rw ≤ 1000) ∧ (1 ≤ cl ∧ cl ≤ 1000) ∧ 1 ≤ g ∧
      r' = { floors := fl, rows := rw, columns := cl, gates := g
             spots := freshGrid fl rw cl
             vehicleMap := r.vehicleMap, vehicleHistory := r.vehicleHistory } := by
  unfold ParkingService.initializeParkingLot at h
  by_cases h1 : fl < 1 ∨ 8 < fl
  case pos => rw [if_pos h1] at h; exact absurd h (by simp)
  rw [if_neg h1] at h
  by_cases h2 : rw < 1 ∨ 1000 < rw
  case pos => rw [if_pos h2] at h; exact absurd h (by simp)
  rw [if_neg h2] at h
  by_cases h3 : cl < 1 ∨ 1000 < cl
  case pos => rw [if_pos h3] at h; exact absurd h (by simp)
  rw [if_neg h3] at h
  by_cases h4 : g < 1
  case pos => rw [if_pos h4] at h; exact absurd h (by simp)
  rw [if_neg h4] at h
  unfold InMemoryParkingRepository.initializeParkingLot at h
  simp only [Prod.mk.injEq] at h
  exact ⟨by omega, by omega, by omega, by omega, h.2.symm⟩

theorem getD_range_map {α : Type} (g : Nat → α) {n i : Nat} (d : α) (h : i < n) :
    ((List.range n).map g).getD i d = g i := by
  have hlen : i < ((List.range n).map g).length := by
    rw [List.length_map, List.length_range]
    exact h
  rw [List.getD_eq_getElem _ _ hlen, List.getElem_map, List.getElem_range]

theorem freshGrid_getD {fl rw cl : Int} {f row col : Nat}
    (hf : f < fl.toNat) (hrow : row < rw.toNat) (hcol : col < cl.toNat) :
    (((freshGrid fl rw cl).getD f []).getD row []).getD col defaultSpot =
      { floor := (f : Int), row := (row : Int), column := (col : Int)
        vehicleType := "", isActive := false, isOccupied := false
        vehicleNumber := "" } := by
  unfold freshGrid
  rw [getD_range_map _ _ hf, getD_range_map _ _ hrow, getD_range_map _ _ hcol]

theorem freshGrid_shape (fl rw cl : Int) :
    (freshGrid fl rw cl).length = fl.toNat ∧
    ∀ a ∈ freshGrid fl rw cl, a.length = rw.toNat ∧
      ∀ b ∈ a, b.length = cl.toNat := by
  constructor
  · simp [freshGrid]
  · intro a ha
    simp only [freshGrid, List.mem_map] at ha
    obtain ⟨f, _, rfl⟩ := ha
    constructor
    · simp
    · intro b hb
      simp only [List.mem_map] at hb
      obtain ⟨row, _, rfl⟩ := hb
      simp

/-! ## Lemmas: the invariant is preserved by every engine operation -/

theorem setSpot_eq (r : InMemoryParkingRepository) (fl rw cl : Int) (s : ParkingSpot) :
    r.setSpot fl rw cl s = r.setSpotN fl.toNat rw.toNat cl.toNat s := rfl

theorem getSpot_eq (r : InMemoryParkingRepository) (fl rw cl : Int) :
    r.getSpot fl rw cl = r.getSpotN fl.toNat rw.toNat cl.toNat := rfl

theorem isValidLocation_iff {r : InMemoryParkingRepository} {fl rw cl : Int} :
    r.isValidLocation fl rw cl = true ↔
      0 ≤ fl ∧ fl < r.floors ∧ 0 ≤ rw ∧ rw < r.rows ∧ 0 ≤ cl ∧ cl < r.columns := by
  simp [InMemoryParkingRepository.isValidLocation, and_assoc]

theorem isValidLocation_natCast {r : InMemoryParkingRepository} {f row col : Nat}
    (hf : f < r.floors.toNat) (hrow : row < r.rows.toNat)
    (hcol : col < r.columns.toNat) :
    r.isValidLocation (f : Int) (row : Int) (col : Int) = true := by
  simp only [InMemoryParkingRepository.isValidLocation, Bool.and_eq_true,
    decide_eq_true_eq]
  omega

theorem shape_bounds {r : InMemoryParkingRepository} (hshape : gridShape r)
    {f row col : Nat} (hf : f < r.floors.toNat) (hrow : row < r.rows.toNat)
    (hcol : col < r.columns.toNat) :
    f < r.spots.length ∧ row < (r.spots.getD f []).length ∧
      col < ((r.spots.getD f []).getD row []).length := by
  obtain ⟨hlen, hmem⟩ := hshape
  have h1 : f < r.spots.length := by rw [hlen]; exact hf
  have h2 := hmem _ (getD_mem h1 : r.spots.getD f [] ∈ r.spots)
  have h3 : row < (r.spots.getD f []).length := by rw [h2.1]; exact hrow
  have h4 := h2.2 _ (getD_mem h3 : (r.spots.getD f []).getD row [] ∈ r.spots.getD f [])
  refine ⟨h1, h3, ?_⟩
  rw [h4]
  exact hcol

/-- The invariant holds after a service initialization from a state whose
`current` map is empty. -/
theorem inv_of_initialize {r r' : InMemoryParkingRepository} {fl rw cl g : Int}
    (hmap : r.vehicleMap = [])
    (h : ParkingService.initializeParkingLot r fl rw cl g = (Except.ok (), r')) :
    Inv r' := by
  obtain ⟨hfl, hrw, hcl, hg, rfl⟩ := initialize_ok h
  refine ⟨⟨⟨hfl.1, hfl.2⟩, ⟨hrw.1, hrw.2⟩, ⟨hcl.1, hcl.2⟩⟩, freshGrid_shape fl rw cl, ?_, ?_⟩
  · intro f row col hf hrow hcol
    show spotOK _ (f, row, col)
    unfold spotOK InMemoryParkingRepository.getSpotN
    dsimp only
    rw [freshGrid_getD hf hrow hcol]
    refine ⟨by simp, by simp, ?_⟩
    intro hcontra
    exact absurd hcontra (by simp)
  · intro e he
    have he' : e ∈ r.vehicleMap := he
    rw [hmap] at he'
    exact absurd he' (List.not_mem_nil e)

/-- The invariant is preserved by the service `ConfigureSpot`. -/
theorem inv_configure {r r' : InMemoryParkingRepository} {fl rw cl : Int}
    {code : String} {res : Except String Unit} (hInv : Inv r)
    (h : ParkingService.configureSpot r fl rw cl code = (res, r')) : Inv r' := by
  rcases configureSpot_cases h with rfl | ⟨hval, hocc, vt, act, hcode, hres, rfl⟩
  · exact hInv
  obtain ⟨hdims, hshape, hspot, hentry⟩ := hInv
  have hvx := isValidLocation_iff.mp hval
  have hF : fl.toNat < r.floors.toNat := by omega
  have hR : rw.toNat < r.rows.toNat := by omega
  have hC : cl.toNat < r.columns.toNat := by omega
  have hlb := shape_bounds hshape hF hR hC
  have hoccN : (r.getSpotN fl.toNat rw.toNat cl.toNat).isOccupied = false := by
    rw [← getSpot_eq]; exact hocc
  have hsON := hspot fl.toNat rw.toNat cl.toNat hF hR hC
  have hnum : (r.getSpotN fl.toNat rw.toNat cl.toNat).vehicleNumber = "" := by
    rcases hsON with ⟨hiff, _, _⟩
    by_contra hne
    have hcontra := hiff.mpr hne
    rw [hoccN] at hcontra
    exact absurd hcontra (by simp)
  rw [setSpot_eq, getSpot_eq]
  refine ⟨hdims, ?_, ?_, ?_⟩
  · exact gridShape_setSpotN cl.toNat _ hshape hF hR
  · intro f row col hf hrow hcol
    by_cases hpq : fl.toNat = f ∧ rw.toNat = row ∧ cl.toNat = col
    · obtain ⟨rfl, rfl, rfl⟩ := hpq
      show spotOK _ (fl.toNat, rw.toNat, cl.toNat)
      unfold spotOK
      dsimp only
      rw [show (r.setSpotN fl.toNat rw.toNat cl.toNat
        { r.getSpotN fl.toNat rw.toNat cl.toNat with
          vehicleType := vt, isActive := act }).getSpotN fl.toNat rw.toNat cl.toNat =
        { r.getSpotN fl.toNat rw.toNat cl.toNat with vehicleType := vt, isActive := act }
        from getSpotN_setSpotN_self r _ _ _ _ hlb.1 hlb.2.1 hlb.2.2]
      dsimp only
      refine ⟨by simp [hoccN, hnum], fun _ => hoccN, ?_⟩
      intro hcontra
      rw [hoccN] at hcontra
      exact absurd hcontra (by simp)
    · have hne := getSpotN_setSpotN_ne r fl.toNat rw.toNat cl.toNat f row col
        { r.getSpotN fl.toNat rw.toNat cl.toNat with vehicleType := vt, isActive := act }
        hpq
      have hold := hspot f row col hf hrow hcol
      show spotOK _ (f, row, col)
      unfold spotOK
      dsimp only
      rw [hne]
      exact hold
  · intro e he
    have hold := hentry e he
    obtain ⟨p, hscan, hb1, hb2, hb3, hfmt, hocc', hnum'⟩ := hold
    have hpq : ¬(fl.toNat = p.1 ∧ rw.toNat = p.2.1 ∧ cl.toNat = p.2.2) := by
      rintro ⟨h1, h2, h3⟩
      rw [← h1, ← h2, ← h3] at hocc'
      rw [hoccN] at hocc'
      exact absurd hocc' (by simp)
    have hne := getSpotN_setSpotN_ne r fl.toNat rw.toNat cl.toNat p.1 p.2.1 p.2.2
      { r.getSpotN fl.toNat rw.toNat cl.toNat with vehicleType := vt, isActive := act }
      hpq
    exact ⟨p, hscan, hb1, hb2, hb3, hfmt, by rw [hne]; exact hocc',
      by rw [hne]; exact hnum'⟩

/-- The invariant is preserved by occupying a free in-grid spot for a fresh,
nonempty vehicle: the grid write plus the `current` index insert. -/
theorem inv_occupy {r : InMemoryParkingRepository} (hInv : Inv r)
    {f row col : Nat} {v : String}
    (hf : f < r.floors.toNat) (hrow : row < r.rows.toNat) (hcol : col < r.columns.toNat)
    (hocc : (r.getSpotN f row col).isOccupied = false)
    (hact : (r.getSpotN f row col).isActive = true)
    (hv : v ≠ "") (hlook : mapLookup r.vehicleMap v = none) :
    Inv { r.setSpotN f row col
      { r.getSpotN f row col with isOccupied := true, vehicleNumber := v } with
        vehicleMap := mapInsert r.vehicleMap v
          (fmtSpotID (f : Int) (row : Int) (col : Int)) } := by
  obtain ⟨hdims, hshape, hspot, hentry⟩ := hInv
  obtain ⟨⟨hd1, hd2⟩, ⟨hd3, hd4⟩, ⟨hd5, hd6⟩⟩ := id hdims
  have hlb := shape_bounds hshape hf hrow hcol
  have hself : ({ r.setSpotN f row col
      { r.getSpotN f row col with isOccupied := true, vehicleNumber := v } with
        vehicleMap := mapInsert r.vehicleMap v
          (fmtSpotID (f : Int) (row : Int) (col : Int)) } :
      InMemoryParkingRepository).getSpotN f row col =
      { r.getSpotN f row col with isOccupied := true, vehicleNumber := v } :=
    getSpotN_setSpotN_self r _ _ _ _ hlb.1 hlb.2.1 hlb.2.2
  refine ⟨hdims, ?_, ?_, ?_⟩
  · exact gridShape_setSpotN col _ hshape hf hrow
  · intro a b c ha hb hc
    have ha' : a < r.floors.toNat := ha
    have hb' : b < r.rows.toNat := hb
    have hc' : c < r.columns.toNat := hc
    by_cases hpq : f = a ∧ row = b ∧ col = c
    · obtain ⟨rfl, rfl, rfl⟩ := hpq
      show spotOK _ (f, row, col)
      unfold spotOK
      dsimp only
      rw [hself]
      dsimp only
      refine ⟨by simp [hv], ?_, ?_⟩
      · intro hcontra
        rw [hact] at hcontra
        exact absurd hcontra (by simp)
      · intro _
        exact mapLookup_insert_self r.vehicleMap v _
    · have hne : ({ r.setSpotN f row col
          { r.getSpotN f row col with isOccupied := true, vehicleNumber := v } with
            vehicleMap := mapInsert r.vehicleMap v
              (fmtSpotID (f : Int) (row : Int) (col : Int)) } :
          InMemoryParkingRepository).getSpotN a b c = r.getSpotN a b c :=
        getSpotN_setSpotN_ne r f row col a b c _ hpq
      obtain ⟨h1, h2, h3⟩ := hspot a b c ha' hb' hc'
      show spotOK _ (a, b, c)
      unfold spotOK
      dsimp only
      rw [hne]
      refine ⟨h1, h2, ?_⟩
      intro hoc
      have hmap := h3 hoc
      have hwv : v ≠ (r.getSpotN a b c).vehicleNumber := by
        intro hcontra
        rw [← hcontra] at hmap
        rw [hlook] at hmap
        exact absurd hmap (by simp)
      rw [mapLookup_insert_ne _ _ hwv]
      exact hmap
  · intro e he
    have he' : e ∈ mapInsert r.vehicleMap v
        (fmtSpotID (f : Int) (row : Int) (col : Int)) := he
    rcases mem_mapInsert.mp he' with rfl | ⟨hmem, hne1⟩
    · refine ⟨(f, row, col), ?_, hf, hrow, hcol, rfl, ?_, ?_⟩
      · show sscanfSpotID (fmtSpotID (f : Int) (row : Int) (col : Int)) = _
        exact sscanfSpotID_fmt f row col (by omega) (by omega) (by omega)
      · rw [hself]
      · rw [hself]
    · obtain ⟨p, hscan, hb1, hb2, hb3, hfmt, hocc', hnum'⟩ := hentry e hmem
      have hpq : ¬(f = p.1 ∧ row = p.2.1 ∧ col = p.2.2) := by
        rintro ⟨h1, h2, h3⟩
        rw [← h1, ← h2, ← h3] at hocc'
        rw [hocc] at hocc'
        exact absurd hocc' (by simp)
      have hne : ({ r.setSpotN f row col
          { r.getSpotN f row col with isOccupied := true, vehicleNumber := v } with
            vehicleMap := mapInsert r.vehicleMap v
              (fmtSpotID (f : Int) (row : Int) (col : Int)) } :
          InMemoryParkingRepository).getSpotN p.1 p.2.1 p.2.2 =
          r.getSpotN p.1 p.2.1 p.2.2 :=
        getSpotN_setSpotN_ne r f row col p.1 p.2.1 p.2.2 _ hpq
      exact ⟨p, hscan, hb1, hb2, hb3, hfmt, by rw [hne]; exact hocc',
        by rw [hne]; exact hnum'⟩

theorem fmtSpotID_inj_nat {a b c f row col : Nat} (ha : a < 2 ^ 63) (hb : b < 2 ^ 63)
    (hc : c < 2 ^ 63) (hf : f < 2 ^ 63) (hrow : row < 2 ^ 63) (hcol : col < 2 ^ 63)
    (h : fmtSpotID (a : Int) (b : Int) (c : Int) =
      fmtSpotID (f : Int) (row : Int) (col : Int)) :
    a = f ∧ b = row ∧ c = col := by
  have h1 := sscanfSpotID_fmt a b c ha hb hc
  have h2 := sscanfSpotID_fmt f row col hf hrow hcol
  rw [h, h2] at h1
  injection h1 with h1
  injection h1 with h1a h1bc
  injection h1bc with h1b h1c
  refine ⟨?_, ?_, ?_⟩
  · have : f = a := by exact_mod_cast h1a
    exact this.symm
  · have : row = b := by exact_mod_cast h1b
    exact this.symm
  · have : col = c := by exact_mod_cast h1c
    exact this.symm

/-- The invariant is preserved by releasing an occupied in-grid spot: the
grid write, the `history` insert, and the `current` index delete. -/
theorem inv_release {r : InMemoryParkingRepository} (hInv : Inv r)
    {f row col : Nat} {v : String}
    (hf : f < r.floors.toNat) (hrow : row < r.rows.toNat) (hcol : col < r.columns.toNat)
    (hocc : (r.getSpotN f row col).isOccupied = true)
    (hveh : (r.getSpotN f row col).vehicleNumber = v) :
    Inv { r.setSpotN f row col
      { r.getSpotN f row col with isOccupied := false, vehicleNumber := "" } with
        vehicleHistory := mapInsert r.vehicleHistory v
          (fmtSpotID (f : Int) (row : Int) (col : Int))
        vehicleMap := mapErase r.vehicleMap v } := by
  obtain ⟨hdims, hshape, hspot, hentry⟩ := hInv
  obtain ⟨⟨hd1, hd2⟩, ⟨hd3, hd4⟩, ⟨hd5, hd6⟩⟩ := id hdims
  have hlb := shape_bounds hshape hf hrow hcol
  have hvlook : mapLookup r.vehicleMap v =
      some (fmtSpotID (f : Int) (row : Int) (col : Int)) := by
    have h3 := (hspot f row col hf hrow hcol).2.2 hocc
    rw [hveh] at h3
    exact h3
  have hself : ({ r.setSpotN f row col
      { r.getSpotN f row col with isOccupied := false, vehicleNumber := "" } with
        vehicleHistory := mapInsert r.vehicleHistory v
          (fmtSpotID (f : Int) (row : Int) (col : Int))
        vehicleMap := mapErase r.vehicleMap v } :
      InMemoryParkingRepository).getSpotN f row col =
      { r.getSpotN f row col with isOccupied := false, vehicleNumber := "" } :=
    getSpotN_setSpotN_self r _ _ _ _ hlb.1 hlb.2.1 hlb.2.2
  refine ⟨hdims, ?_, ?_, ?_⟩
  · exact gridShape_setSpotN col _ hshape hf hrow
  · intro a b c ha hb hc
    have ha' : a < r.floors.toNat := ha
    have hb' : b < r.rows.toNat := hb
    have hc' : c < r.columns.toNat := hc
    by_cases hpq : f = a ∧ row = b ∧ col = c
    · obtain ⟨rfl, rfl, rfl⟩ := hpq
      show spotOK _ (f, row, col)
      unfold spotOK
      dsimp only
      rw [hself]
      dsimp only
      refine ⟨by simp, fun _ => rfl, ?_⟩
      intro hcontra
      exact absurd hcontra (by simp)
    · have hne : ({ r.setSpotN f row col
          { r.getSpotN f row col with isOccupied := false, vehicleNumber := "" } with
            vehicleHistory := mapInsert r.vehicleHistory v
              (fmtSpotID (f : Int) (row : Int) (col : Int))
            vehicleMap := mapErase r.vehicleMap v } :
          InMemoryParkingRepository).getSpotN a b c = r.getSpotN a b c :=
        getSpotN_setSpotN_ne r f row col a b c _ hpq
      obtain ⟨h1, h2, h3⟩ := hspot a b c ha' hb' hc'
      show spotOK _ (a, b, c)
      unfold spotOK
      dsimp only
      rw [hne]
      refine ⟨h1, h2, ?_⟩
      intro hoc
      have hmap := h3 hoc
      have hwv : v ≠ (r.getSpotN a b c).vehicleNumber := by
        intro hcontra
        rw [← hcontra] at hmap
        rw [hvlook] at hmap
        have hfmt_eq : fmtSpotID (f : Int) (row : Int) (col : Int) =
            fmtSpotID (a : Int) (b : Int) (c : Int) := by
          injection hmap
        have := fmtSpotID_inj_nat (by omega) (by omega) (by omega)
          (by omega) (by omega) (by omega) hfmt_eq
        exact hpq this
      rw [mapLookup_erase_ne _ hwv]
      exact hmap
  · intro e he
    have he' : e ∈ mapErase r.vehicleMap v := he
    obtain ⟨hmem, hne1⟩ := mem_mapErase.mp he'
    obtain ⟨p, hscan, hb1, hb2, hb3, hfmt, hocc', hnum'⟩ := hentry e hmem
    have hpq : ¬(f = p.1 ∧ row = p.2.1 ∧ col = p.2.2) := by
      rintro ⟨h1, h2, h3⟩
      rw [← h1, ← h2, ← h3] at hnum'
      rw [hveh] at hnum'
      exact hne1 hnum'.symm
    have hne : ({ r.setSpotN f row col
        { r.getSpotN f row col with isOccupied := false, vehicleNumber := "" } with
          vehicleHistory := mapInsert r.vehicleHistory v
            (fmtSpotID (f : Int) (row : Int) (col : Int))
          vehicleMap := mapErase r.vehicleMap v } :
        InMemoryParkingRepository).getSpotN p.1 p.2.1 p.2.2 =
        r.getSpotN p.1 p.2.1 p.2.2 :=
      getSpotN_setSpotN_ne r f row col p.1 p.2.1 p.2.2 _ hpq
    exact ⟨p, hscan, hb1, hb2, hb3, hfmt, by rw [hne]; exact hocc',
      by rw [hne]; exact hnum'⟩

/-- The invariant is preserved by `Park`, successful or not. -/
theorem inv_park {r r' : InMemoryParkingRepository} {vt v : String}
    {res : Except String String} (hInv : Inv r)
    (h : ParkingService.park r vt v = (res, r')) : Inv r' := by
  cases res with
  | error e =>
    rw [park_err h]
    exact hInv
  | ok sid =>
    obtain ⟨ht, hv, hlook, hfind, hpark⟩ := park_ok h
    obtain ⟨f, row, col, havail, hsid, hmin⟩ :=
      (findAvailableSpot_ok_iff r vt sid).mp hfind
    have hb := havail
    simp only [spotAvailable, Bool.and_eq_true, decide_eq_true_eq] at hb
    obtain ⟨⟨⟨hf, hrow⟩, hcol⟩, hmatch⟩ := hb
    simp only [InMemoryParkingRepository.spotMatches, Bool.and_eq_true, beq_iff_eq,
      Bool.not_eq_true'] at hmatch
    obtain ⟨⟨hact, htype⟩, hocc⟩ := hmatch
    obtain ⟨⟨hd1, hd2⟩, ⟨hd3, hd4⟩, ⟨hd5, hd6⟩⟩ := id hInv.1
    have hval := isValidLocation_natCast hf hrow hcol
    have hparse : r.parseSpotID sid =
        Except.ok ((f : Int), (row : Int), (col : Int)) := by
      rw [hsid]
      exact parseSpotID_fmt r f row col hval (by omega) (by omega) (by omega)
    have hr' := parkVehicle_ok_state hparse hpark
    rw [hr', hsid]
    rw [setSpot_eq, getSpot_eq]
    simp only [Int.toNat_natCast]
    exact inv_occupy hInv hf hrow hcol hocc hact hv hlook

/-- The invariant is preserved by `Unpark`, successful or not. -/
theorem inv_unpark {r r' : InMemoryParkingRepository} {sid v : String}
    {res : Except String Unit} (hInv : Inv r)
    (h : ParkingService.unpark r sid v = (res, r')) : Inv r' := by
  cases res with
  | error e =>
    rw [unpark_err h]
    exact hInv
  | ok u =>
    obtain ⟨hv, hlook, fl, rw2, cl, hparse, hunpark⟩ := unpark_ok h
    obtain ⟨p, hscan, hb1, hb2, hb3, hfmt, hocc', hnum'⟩ :=
      hInv.2.2.2 (v, sid) (mem_of_mapLookup hlook)
    have hval := isValidLocation_natCast hb1 hb2 hb3
    unfold InMemoryParkingRepository.parseSpotID at hparse
    rw [hscan] at hparse
    dsimp only at hparse
    rw [hval] at hparse
    rw [if_neg (by decide : ¬ ((!true) = true))] at hparse
    obtain ⟨rfl, rfl, rfl⟩ : fl = (p.1 : Int) ∧ rw2 = (p.2.1 : Int) ∧
        cl = (p.2.2 : Int) := by
      injection hparse with h1
      injection h1 with h1a h1bc
      injection h1bc with h1b h1c
      exact ⟨h1a.symm, h1b.symm, h1c.symm⟩
    obtain ⟨_, hoccS, hvehS, hr'⟩ := unparkVehicle_ok_state hunpark
    rw [hr']
    rw [setSpot_eq, getSpot_eq]
    simp only [Int.toNat_natCast]
    rw [show goIntStr (p.1 : Int) ++ "-" ++ goIntStr (p.2.1 : Int) ++ "-" ++
      goIntStr (p.2.2 : Int) =
      fmtSpotID (p.1 : Int) (p.2.1 : Int) (p.2.2 : Int) from rfl]
    exact inv_release hInv hb1 hb2 hb3 hocc' hnum'

/-- Every reachable state satisfies the invariant. -/
theorem reachable_inv {r : InMemoryParkingRepository} (h : Reachable r) : Inv r := by
  induction h with
  | init fl rw cl g r' hinit => exact inv_of_initialize rfl hinit
  | configure r fl rw cl code res r' hr hstep ih => exact inv_configure ih hstep
  | park r vt v res r' hr hstep ih => exact inv_park ih hstep
  | unpark r sid v res r' hr hstep ih => exact inv_unpark ih hstep

/-! ## Lemmas: the strict wire pattern is accepted by the Sscanf-style parse -/

theorem scanGoInt_of_magnitude {cs : List Char} {n : Nat} {rest : List Char}
    (h : scanMagnitude cs = some (n, rest)) (hn : n < 2 ^ 63) :
    scanGoInt cs = some ((n : Int), rest) := by
  cases cs with
  | nil => exact absurd h (by simp [scanMagnitude])
  | cons c t =>
    unfold scanMagnitude at h
    dsimp only at h
    cases hc : isDigitCh c with
    | false =>
      rw [hc] at h
      exact absurd h (by simp)
    | true =>
      rw [hc] at h
      rw [if_pos rfl] at h
      unfold scanGoInt
      rw [skipSpacesCh_of_digit hc]
      dsimp only
      rw [if_neg (ne_dash_of_digit hc), if_neg (ne_plus_of_digit hc)]
      rw [show scanMagnitude (c :: t) = some (scanDigitsAux t (charValue c)) by
        unfold scanMagnitude
        dsimp only
        rw [hc]
        rw [if_pos rfl]]
      have heq : scanDigitsAux t (charValue c) = (n, rest) := by injection h
      rw [heq]
      dsimp only
      rw [if_pos (by exact_mod_cast hn)]

/-- A string matching the spec's exact pattern is accepted by the code's
`Sscanf`-style scan (when the coordinates fit in 64 bits) with the same
three values. -/
theorem sscanf_of_specPattern {s : String} {f row col : Nat}
    (h : specPatternSpotID s = some (f, row, col))
    (hf : f < 2 ^ 63) (hrow : row < 2 ^ 63) (hcol : col < 2 ^ 63) :
    sscanfSpotID s = some ((f : Int), (row : Int), (col : Int)) := by
  unfold specPatternSpotID at h
  cases h1 : scanMagnitude s.data with
  | none => rw [h1] at h; exact absurd h (by simp)
  | some p1 =>
    obtain ⟨n1, r1⟩ := p1
    rw [h1] at h
    dsimp only at h
    cases h2 : scanLit '-' r1 with
    | none => rw [h2] at h; exact absurd h (by simp)
    | some r2 =>
      rw [h2] at h
      dsimp only at h
      cases h3 : scanMagnitude r2 with
      | none => rw [h3] at h; exact absurd h (by simp)
      | some p2 =>
        obtain ⟨n2, r3⟩ := p2
        rw [h3] at h
        dsimp only at h
        cases h4 : scanLit '-' r3 with
        | none => rw [h4] at h; exact absurd h (by simp)
        | some r4 =>
          rw [h4] at h
          dsimp only at h
          cases h5 : scanMagnitude r4 with
          | none => rw [h5] at h; exact absurd h (by simp)
          | some p3 =>
            obtain ⟨n3, r5⟩ := p3
            rw [h5] at h
            dsimp only at h
            by_cases h6 : r5 = []
            case neg => rw [if_neg h6] at h; exact absurd h (by simp)
            rw [if_pos h6] at h
            obtain ⟨rfl, rfl, rfl⟩ : n1 = f ∧ n2 = row ∧ n3 = col := by
              injection h with h'
              injection h' with ha hbc
              injection hbc with hb hc
              exact ⟨ha, hb, hc⟩
            subst h6
            unfold sscanfSpotID
            rw [scanGoInt_of_magnitude h1 hf]
            dsimp only
            rw [h2]
            dsimp only
            rw [scanGoInt_of_magnitude h3 hrow]
            dsimp only
            rw [h4]
            dsimp only
            rw [scanGoInt_of_magnitude h5 hcol]

/-! ## Lemmas: assorted facts for the claim proofs -/

/-- Every spot of a freshly built grid reads back unoccupied (out-of-range
reads return the zero spot, which is unoccupied too). -/
theorem freshGrid_unoccupied (fl rw cl : Int) (f row col : Nat) :
    ((((freshGrid fl rw cl).getD f []).getD row []).getD col defaultSpot).isOccupied =
      false := by
  by_cases hf : f < fl.toNat
  · by_cases hrow : row < rw.toNat
    · by_cases hcol : col < cl.toNat
      · rw [freshGrid_getD hf hrow hcol]
      · rw [List.getD_eq_default]
        · rfl
        · unfold freshGrid
          rw [getD_range_map _ _ hf, getD_range_map _ _ hrow, List.length_map,
            List.length_range]
          omega
    · rw [show ((freshGrid fl rw cl).getD f []).getD row [] = [] from ?_]
      · rfl
      · rw [List.getD_eq_default]
        unfold freshGrid
        rw [getD_range_map _ _ hf, List.length_map, List.length_range]
        omega
  · rw [show (freshGrid fl rw cl).getD f [] = [] from ?_]
    · rfl
    · rw [List.getD_eq_default]
      unfold freshGrid
      rw [List.length_map, List.length_range]
      omega

/-- When the vehicle has no `current` entry, `Park` never reports
`VehicleAlreadyParked` (it may still fail for other reasons). -/
theorem park_not_alreadyParked {r : InMemoryParkingRepository} {vt v : String}
    (hlook : mapLookup r.vehicleMap v = none) :
    isAlreadyParkedError (ParkingService.park r vt v).1 = false := by
  unfold ParkingService.park
  by_cases ht : vt = Bicycle ∨ vt = Motorcycle ∨ vt = Automobile
  case neg =>
    rw [ParkingService.validateVehicleType, if_neg ht]
    dsimp only
    decide
  rw [ParkingService.validateVehicleType, if_pos ht]
  by_cases hv : v = ""
  case pos =>
    rw [ParkingService.validateVehicleNumber, if_pos hv]
    dsimp only
    decide
  rw [ParkingService.validateVehicleNumber, if_neg hv]
  rw [isVehicleParked_eq, hlook]
  dsimp only
  rw [if_neg (by simp : ¬ (false = true))]
  cases hfind : r.findAvailableSpot vt with
  | error e =>
    dsimp only
    decide
  | ok sid =>
    dsimp only
    cases hpark : r.parkVehicle sid v with
    | mk res r1 =>
      cases res with
      | ok u => rfl
      | error e =>
        dsimp only
        unfold InMemoryParkingRepository.parkVehicle at hpark
        cases hparse : r.parseSpotID sid with
        | ok fc =>
          obtain ⟨a, b, c⟩ := fc
          rw [hparse] at hpark
          dsimp only at hpark
          exact absurd (congrArg Prod.fst hpark) (by simp)
        | error e2 =>
          rw [hparse] at hpark
          dsimp only at hpark
          obtain rfl : e2 = e := by
            have h1 : (Except.error e2 : Except String Unit) = Except.error e :=
              congrArg Prod.fst hpark
            injection h1
          unfold InMemoryParkingRepository.parseSpotID at hparse
          cases hscan : sscanfSpotID sid with
          | none =>
            rw [hscan] at hparse
            obtain rfl : ErrInvalidSpotID = e2 := by
              injection hparse
            decide
          | some fc =>
            obtain ⟨a, b, c⟩ := fc
            rw [hscan] at hparse
            dsimp only at hparse
            cases hval : r.isValidLocation a b c with
            | true =>
              rw [hval, if_neg (by decide : ¬ ((!true) = true))] at hparse
              exact absurd hparse (by simp)
            | false =>
              rw [hval, if_pos (by decide : (!false) = true)] at hparse
              obtain rfl : ErrInvalidLocation = e2 := by
                injection hparse
              decide

/-! ## The seed states are reachable -/

theorem reachable_sample0 : Reachable sample0 :=
  Reachable.init 1 1 2 1 sample0 rfl

theorem reachable_sample2 : Reachable sample2 :=
  Reachable.configure sample1 0 0 1 "B-1"
    (ParkingService.configureSpot sample1 0 0 1 "B-1").1 sample2
    (Reachable.configure sample0 0 0 0 "B-1"
      (ParkingService.configureSpot sample0 0 0 0 "B-1").1 sample1
      reachable_sample0 rfl) rfl

theorem reachable_sample3 : Reachable sample3 :=
  Reachable.park sample2 Bicycle "BC1" (ParkingService.park sample2 Bicycle "BC1").1
    sample3 reachable_sample2 rfl

/-! ## The claims -/

/-- C1: In every reachable state, if `park(T, v)` succeeds for a valid type
`T` and nonempty, not-currently-parked `v`, the returned spot ID names an
in-grid spot that was active, configured with type `T` and unoccupied
before the call; immediately afterwards that spot is occupied
(`IsSpotOccupied` returns `true`) and `SearchVehicle v` returns
`(spotID, true)`. -/
theorem C1_park_assigns_matching_free_spot (r r' : InMemoryParkingRepository)
    (hreach : Reachable r) (vehicleType vehicleNumber spotID : String)
    (hvt : vehicleType = Bicycle ∨ vehicleType = Motorcycle ∨ vehicleType = Automobile)
    (hvn : vehicleNumber ≠ "")
    (hnotparked : mapLookup r.vehicleMap vehicleNumber = none)
    (hpark : ParkingService.park r vehicleType vehicleNumber = (Except.ok spotID, r')) :
    ∃ f row col : Nat,
      spotID = fmtSpotID (f : Int) (row : Int) (col : Int) ∧
      f < r.floors.toNat ∧ row < r.rows.toNat ∧ col < r.columns.toNat ∧
      (r.getSpotN f row col).isActive = true ∧
      (r.getSpotN f row col).vehicleType = vehicleType ∧
      (r.getSpotN f row col).isOccupied = false ∧
      r'.isSpotOccupied (f : Int) (row : Int) (col : Int) = Except.ok true ∧
      ParkingService.searchVehicle r' vehicleNumber = Except.ok (spotID, true) := by
  obtain ⟨_, _, hlook, hfind, hpk⟩ := park_ok hpark
  obtain ⟨f, row, col, havail, hsid, hmin⟩ :=
    (findAvailableSpot_ok_iff r vehicleType spotID).mp hfind
  have hb := havail
  simp only [spotAvailable, Bool.and_eq_true, decide_eq_true_eq] at hb
  obtain ⟨⟨⟨hf, hrow⟩, hcol⟩, hmatch⟩ := hb
  simp only [InMemoryParkingRepository.spotMatches, Bool.and_eq_true, beq_iff_eq,
    Bool.not_eq_true'] at hmatch
  obtain ⟨⟨hact, htype⟩, hocc⟩ := hmatch
  have hInv := reachable_inv hreach
  obtain ⟨⟨hd1, hd2⟩, ⟨hd3, hd4⟩, ⟨hd5, hd6⟩⟩ := id hInv.1
  have hlb := shape_bounds hInv.2.1 hf hrow hcol
  have hval := isValidLocation_natCast hf hrow hcol
  have hparse : r.parseSpotID spotID =
      Except.ok ((f : Int), (row : Int), (col : Int)) := by
    rw [hsid]
    exact parseSpotID_fmt r f row col hval (by omega) (by omega) (by omega)
  have hr' := parkVehicle_ok_state hparse hpk
  have hval' : r'.isValidLocation (f : Int) (row : Int) (col : Int) = true := by
    rw [hr']
    exact hval
  have hgs : r'.getSpotN f row col =
      { r.getSpotN f row col with isOccupied := true, vehicleNumber := vehicleNumber } := by
    rw [hr']
    exact getSpotN_setSpotN_self r _ _ _ _ hlb.1 hlb.2.1 hlb.2.2
  have hlk : mapLookup r'.vehicleMap vehicleNumber = some spotID := by
    rw [hr']
    exact mapLookup_insert_self r.vehicleMap vehicleNumber spotID
  refine ⟨f, row, col, hsid, hf, hrow, hcol, hact, htype, hocc, ?_, ?_⟩
  · unfold InMemoryParkingRepository.isSpotOccupied
    rw [hval', if_neg (by decide : ¬ ((!true) = true))]
    rw [getSpot_eq]
    simp only [Int.toNat_natCast]
    rw [hgs]
  · unfold ParkingService.searchVehicle
    rw [ParkingService.validateVehicleNumber, if_neg hvn]
    dsimp only
    unfold InMemoryParkingRepository.searchVehicle
    rw [hlk]

/-- C1 witness: the claim instantiated on the spec's seed scenario: parking
BC1 on the 1×1×2 two-bicycle-spot lot yields spot `0-0-0`. -/
theorem C1_park_assigns_matching_free_spot_witness :
    ∃ f row col : Nat,
      "0-0-0" = fmtSpotID (f : Int) (row : Int) (col : Int) ∧
      f < sample2.floors.toNat ∧ row < sample2.rows.toNat ∧
      col < sample2.columns.toNat ∧
      (sample2.getSpotN f row col).isActive = true ∧
      (sample2.getSpotN f row col).vehicleType = Bicycle ∧
      (sample2.getSpotN f row col).isOccupied = false ∧
      sample3.isSpotOccupied (f : Int) (row : Int) (col : Int) = Except.ok true ∧
      ParkingService.searchVehicle sample3 "BC1" = Except.ok ("0-0-0", true) :=
  C1_park_assigns_matching_free_spot sample2 sample3 reachable_sample2
    Bicycle "BC1" "0-0-0" (Or.inl rfl) (by decide) (by decide) rfl

/-- C2: In every reachable state where vehicle `v` is currently parked at
spot `s`, `unpark(s, v)` succeeds; afterwards `SearchVehicle v` returns
`(s, false)`, the spot at `s` is unoccupied, `v` has no `current` entry,
and a subsequent `park` for `v` is no longer rejected with
`VehicleAlreadyParked`. -/
theorem C2_unpark_succeeds_and_clears (r : InMemoryParkingRepository)
    (hreach : Reachable r) (v s : String)
    (hparked : mapLookup r.vehicleMap v = some s) :
    (∃ r'', ParkingService.unpark r s v = (Except.ok (), r'')) ∧
    ∀ r', ParkingService.unpark r s v = (Except.ok (), r') →
      ParkingService.searchVehicle r' v = Except.ok (s, false) ∧
      (∃ f row col : Nat, s = fmtSpotID (f : Int) (row : Int) (col : Int) ∧
        (r'.getSpotN f row col).isOccupied = false) ∧
      mapLookup r'.vehicleMap v = none ∧
      ∀ vt, isAlreadyParkedError (ParkingService.park r' vt v).1 = false := by
  have hInv := reachable_inv hreach
  obtain ⟨⟨hd1, hd2⟩, ⟨hd3, hd4⟩, ⟨hd5, hd6⟩⟩ := id hInv.1
  obtain ⟨p, hscan, hb1, hb2, hb3, hfmt, hocc', hnum'⟩ :=
    hInv.2.2.2 (v, s) (mem_of_mapLookup hparked)
  have hfmt' : s = fmtSpotID (p.1 : Int) (p.2.1 : Int) (p.2.2 : Int) := hfmt
  have hlb := shape_bounds hInv.2.1 hb1 hb2 hb3
  have hv : v ≠ "" := by
    have h1 := (hInv.2.2.1 p.1 p.2.1 p.2.2 hb1 hb2 hb3).1.mp hocc'
    rw [hnum'] at h1
    exact h1
  have hval := isValidLocation_natCast hb1 hb2 hb3
  have hparse : r.parseSpotID s =
      Except.ok ((p.1 : Int), (p.2.1 : Int), (p.2.2 : Int)) := by
    rw [show s = fmtSpotID (p.1 : Int) (p.2.1 : Int) (p.2.2 : Int) from hfmt]
    exact parseSpotID_fmt r p.1 p.2.1 p.2.2 hval (by omega) (by omega) (by omega)
  have hcond : (!(r.getSpot (p.1 : Int) (p.2.1 : Int) (p.2.2 : Int)).isOccupied ||
      ((r.getSpot (p.1 : Int) (p.2.1 : Int) (p.2.2 : Int)).vehicleNumber != v)) = false := by
    rw [getSpot_eq]
    simp only [Int.toNat_natCast]
    rw [hocc', hnum']
    simp
  have hunpark : r.unparkVehicle (p.1 : Int) (p.2.1 : Int) (p.2.2 : Int) v =
      (Except.ok (), { r.setSpot (p.1 : Int) (p.2.1 : Int) (p.2.2 : Int)
        { r.getSpot (p.1 : Int) (p.2.1 : Int) (p.2.2 : Int) with
          isOccupied := false, vehicleNumber := "" } with
        vehicleHistory := mapInsert r.vehicleHistory v
          (goIntStr (p.1 : Int) ++ "-" ++ goIntStr (p.2.1 : Int) ++ "-" ++
            goIntStr (p.2.2 : Int))
        vehicleMap := mapErase r.vehicleMap v }) := by
    unfold InMemoryParkingRepository.unparkVehicle
    rw [hval]
    rw [if_neg (by decide : ¬ ((!true) = true))]
    dsimp only
    rw [hcond]
    rw [if_neg (by decide : ¬ (false = true))]
    rfl
  have hserv : ParkingService.unpark r s v = (Except.ok (),
      (r.unparkVehicle (p.1 : Int) (p.2.1 : Int) (p.2.2 : Int) v).2) := by
    unfold ParkingService.unpark
    rw [ParkingService.validateVehicleNumber, if_neg hv]
    rw [isVehicleParked_eq, hparked]
    dsimp only
    rw [if_neg (by decide : ¬ ((!true) = true))]
    rw [if_neg (show ¬ (s ≠ s) from fun hx => hx rfl)]
    rw [hparse]
    dsimp only
    rw [hunpark]
  refine ⟨⟨_, hserv⟩, ?_⟩
  intro r' hserv'
  have hr' : r' = { r.setSpot (p.1 : Int) (p.2.1 : Int) (p.2.2 : Int)
      { r.getSpot (p.1 : Int) (p.2.1 : Int) (p.2.2 : Int) with
        isOccupied := false, vehicleNumber := "" } with
      vehicleHistory := mapInsert r.vehicleHistory v
        (goIntStr (p.1 : Int) ++ "-" ++ goIntStr (p.2.1 : Int) ++ "-" ++
          goIntStr (p.2.2 : Int))
      vehicleMap := mapErase r.vehicleMap v } := by
    rw [hserv'] at hserv
    have := congrArg Prod.snd hserv
    dsimp only at this
    rw [this, hunpark]
  have hmapN : mapLookup r'.vehicleMap v = none := by
    rw [hr']
    exact mapLookup_erase_self r.vehicleMap v
  have hhist : mapLookup r'.vehicleHistory v =
      some (fmtSpotID (p.1 : Int) (p.2.1 : Int) (p.2.2 : Int)) := by
    rw [hr']
    exact mapLookup_insert_self r.vehicleHistory v _
  have hgR : r'.getSpotN p.1 p.2.1 p.2.2 =
      { r.getSpotN p.1 p.2.1 p.2.2 with isOccupied := false, vehicleNumber := "" } := by
    rw [hr']
    exact getSpotN_setSpotN_self r _ _ _ _ hlb.1 hlb.2.1 hlb.2.2
  refine ⟨?_, ⟨p.1, p.2.1, p.2.2, hfmt', by rw [hgR]⟩, hmapN,
    fun vt => park_not_alreadyParked hmapN⟩
  unfold ParkingService.searchVehicle
  rw [ParkingService.validateVehicleNumber, if_neg hv]
  dsimp only
  unfold InMemoryParkingRepository.searchVehicle
  rw [hmapN, hhist, hfmt']

/-- C2 witness: unparking BC1 from `0-0-0` on the seed scenario. -/
theorem C2_unpark_succeeds_and_clears_witness :
    (∃ r'', ParkingService.unpark sample3 "0-0-0" "BC1" = (Except.ok (), r'')) ∧
    ∀ r', ParkingService.unpark sample3 "0-0-0" "BC1" = (Except.ok (), r') →
      ParkingService.searchVehicle r' "BC1" = Except.ok ("0-0-0", false) ∧
      (∃ f row col : Nat, "0-0-0" = fmtSpotID (f : Int) (row : Int) (col : Int) ∧
        (r'.getSpotN f row col).isOccupied = false) ∧
      mapLookup r'.vehicleMap "BC1" = none ∧
      ∀ vt, isAlreadyParkedError (ParkingService.park r' vt "BC1").1 = false :=
  C2_unpark_succeeds_and_clears sample3 reachable_sample3 "BC1" "0-0-0" (by decide)

/-- C3: For every state and nonempty vehicle number `v`, `unpark(s, v)` fails
with `VehicleNotParked` when `v` has no `current` entry, fails with
`VehicleNotAtSpot` (reporting expected and actual) when `v` is parked at a
different spot, and every failing `unpark` leaves the state unchanged. -/
theorem C3_unpark_mismatch_fails_unchanged (r : InMemoryParkingRepository)
    (s v : String) (hv : v ≠ "") :
    (mapLookup r.vehicleMap v = none →
      ParkingService.unpark r s v =
        (Except.error (ErrVehicleNotParked ++ ": " ++ v), r)) ∧
    (∀ s', mapLookup r.vehicleMap v = some s' → s' ≠ s →
      ParkingService.unpark r s v =
        (Except.error (ErrVehicleNotAtSpot ++ ": " ++ v ++ " (expected: " ++ s ++
          ", actual: " ++ s' ++ ")"), r)) ∧
    (∀ e r', ParkingService.unpark r s v = (Except.error e, r') → r' = r) := by
  refine ⟨?_, ?_, fun e r' h => unpark_err h⟩
  · intro hnone
    unfold ParkingService.unpark
    rw [ParkingService.validateVehicleNumber, if_neg hv]
    rw [isVehicleParked_eq, hnone]
    dsimp only
    rw [if_pos (by decide : (!false) = true)]
  · intro s' hsome hne
    unfold ParkingService.unpark
    rw [ParkingService.validateVehicleNumber, if_neg hv]
    rw [isVehicleParked_eq, hsome]
    dsimp only
    rw [if_neg (by decide : ¬ ((!true) = true))]
    rw [if_pos hne]

/-- C3 witness: on the seed state with BC1 parked at `0-0-0`: BC2 is not
parked, and BC1 is not at `0-0-1`. -/
theorem C3_unpark_mismatch_fails_unchanged_witness :
    ((mapLookup sample3.vehicleMap "BC2" = none →
      ParkingService.unpark sample3 "0-0-1" "BC2" =
        (Except.error (ErrVehicleNotParked ++ ": " ++ "BC2"), sample3)) ∧
    (∀ s', mapLookup sample3.vehicleMap "BC2" = some s' → s' ≠ "0-0-1" →
      ParkingService.unpark sample3 "0-0-1" "BC2" =
        (Except.error (ErrVehicleNotAtSpot ++ ": " ++ "BC2" ++ " (expected: " ++
          "0-0-1" ++ ", actual: " ++ s' ++ ")"), sample3)) ∧
    (∀ e r', ParkingService.unpark sample3 "0-0-1" "BC2" = (Except.error e, r') →
      r' = sample3)) :=
  C3_unpark_mismatch_fails_unchanged sample3 "0-0-1" "BC2" (by decide)

/-- C4: `FindAvailableSpot` returns `ok spotID` exactly when `spotID` names
the lexicographically least (floor, row, column) whose spot is in bounds,
active, of the requested type and unoccupied — the first hit of the
ascending floors/rows/columns scan — and returns `NoAvailableSpot` exactly
when no such spot exists. Being a pure function of the state, identical
states give identical results. -/
theorem C4_findAvailableSpot_scan_order (r : InMemoryParkingRepository)
    (vehicleType : String) :
    (∀ spotID, r.findAvailableSpot vehicleType = Except.ok spotID ↔
      ∃ f row col : Nat, spotAvailable r vehicleType f row col = true ∧
        spotID = fmtSpotID (f : Int) (row : Int) (col : Int) ∧
        ∀ f' row' col' : Nat, spotAvailable r vehicleType f' row' col' = true →
          lexLE (f, row, col) (f', row', col')) ∧
    (r.findAvailableSpot vehicleType = Except.error ErrNoAvailableSpot ↔
      ∀ f row col : Nat, ¬ spotAvailable r vehicleType f row col = true) :=
  ⟨findAvailableSpot_ok_iff r vehicleType, findAvailableSpot_err_iff r vehicleType⟩

/-- C5: The failing interleaving behind the atomicity claim. Each repository
method locks and unlocks the shared mutex on its own, and `Park` holds no
lock across its three repository calls, so two concurrent
`Park(Bicycle, "V1")` calls on a one-free-spot lot can interleave as:
both run `IsVehicleParked` (both see not-parked), both run
`FindAvailableSpot` (both get `0-0-0`), then both `ParkVehicle` writes
succeed. Both calls therefore return `ok "0-0-0"`, contradicting "at most
one succeeds and the other fails with `VehicleAlreadyParked`". -/
theorem C5_park_race_both_succeed :
    InMemoryParkingRepository.isVehicleParked raceLot "V1" = (false, "") ∧
    InMemoryParkingRepository.findAvailableSpot raceLot Bicycle = Except.ok "0-0-0" ∧
    InMemoryParkingRepository.parkVehicle raceLot "0-0-0" "V1" =
      (Except.ok (), raceMid) ∧
    (InMemoryParkingRepository.parkVehicle raceMid "0-0-0" "V1").1 = Except.ok () :=
  ⟨rfl, rfl, rfl, rfl⟩

/-- C6 counterexample: `"0-0-0 junk"` does not match the exact
`floor-row-column` pattern, yet `parseSpotID` accepts it and returns
`(0, 0, 0)` — Go's `Sscanf` ignores input left over after the last verb —
so "fails with `InvalidSpotID` exactly when the string does not match the
exact pattern" is false. -/
theorem C6_trailing_input_accepted :
    specPatternSpotID "0-0-0 junk" = none ∧
    sample0.parseSpotID "0-0-0 junk" = Except.ok (0, 0, 0) :=
  ⟨by decide, rfl⟩

/-- C6 (amended): `parseSpotID` accepts every string matching the exact
`floor-row-column` pattern whose coordinates fit in a 64-bit int,
returning the parsed coordinates when in bounds and `InvalidLocation`
otherwise — never `InvalidSpotID` on such input; and whenever the
`Sscanf`-style scan fails, it fails with `InvalidSpotID`. (The scan also
accepts some strings outside the exact pattern: leading spaces, signs,
and trailing input, as the counterexample shows.) -/
theorem C6_parseSpotID_accepts_pattern (r : InMemoryParkingRepository)
    (s : String) (f row col : Nat)
    (hpat : specPatternSpotID s = some (f, row, col))
    (hf : f < 2 ^ 63) (hrow : row < 2 ^ 63) (hcol : col < 2 ^ 63) :
    r.parseSpotID s = (if r.isValidLocation (f : Int) (row : Int) (col : Int) = true
      then Except.ok ((f : Int), (row : Int), (col : Int))
      else Except.error ErrInvalidLocation) ∧
    r.parseSpotID s ≠ Except.error ErrInvalidSpotID ∧
    ∀ s', sscanfSpotID s' = none →
      r.parseSpotID s' = Except.error ErrInvalidSpotID := by
  have hscan := sscanf_of_specPattern hpat hf hrow hcol
  have h1 : r.parseSpotID s =
      (if r.isValidLocation (f : Int) (row : Int) (col : Int) = true
        then Except.ok ((f : Int), (row : Int), (col : Int))
        else Except.error ErrInvalidLocation) := by
    unfold InMemoryParkingRepository.parseSpotID
    rw [hscan]
    dsimp only
    cases hval : r.isValidLocation (f : Int) (row : Int) (col : Int) with
    | true =>
      rw [if_neg (by decide : ¬ ((!true) = true)), if_pos rfl]
    | false =>
      rw [if_pos (by decide : (!false) = true),
        if_neg (by decide : ¬ (false = true))]
  refine ⟨h1, ?_, ?_⟩
  · rw [h1]
    by_cases hval : r.isValidLocation (f : Int) (row : Int) (col : Int) = true
    · rw [if_pos hval]
      simp
    · rw [if_neg hval]
      intro hcontra
      have : ErrInvalidLocation = ErrInvalidSpotID := by injection hcontra
      exact absurd this (by decide)
  · intro s' hnone
    unfold InMemoryParkingRepository.parseSpotID
    rw [hnone]

/-- C6 witness: the well-formed ID `0-0-1` on the 1×1×2 lot parses to its
coordinates. -/
theorem C6_parseSpotID_accepts_pattern_witness :
    (sample0.parseSpotID "0-0-1" =
      (if sample0.isValidLocation (0 : Int) (0 : Int) (1 : Int) = true
        then Except.ok ((0 : Int), (0 : Int), (1 : Int))
        else Except.error ErrInvalidLocation) ∧
    sample0.parseSpotID "0-0-1" ≠ Except.error ErrInvalidSpotID ∧
    ∀ s', sscanfSpotID s' = none →
      sample0.parseSpotID s' = Except.error ErrInvalidSpotID) :=
  C6_parseSpotID_accepts_pattern sample0 "0-0-1" 0 0 1 (by decide)
    (by norm_num) (by norm_num) (by norm_num)

/-- C7: In every reachable state, every in-grid spot is occupied exactly
when its occupant string is nonempty, and no inactive spot is occupied. -/
theorem C7_spot_occupancy_invariant (r : InMemoryParkingRepository)
    (hreach : Reachable r) (floor row column : Nat)
    (hf : floor < r.floors.toNat) (hrow : row < r.rows.toNat)
    (hcol : column < r.columns.toNat) :
    ((r.getSpotN floor row column).isOccupied = true ↔
      (r.getSpotN floor row column).vehicleNumber ≠ "") ∧
    ((r.getSpotN floor row column).isActive = false →
      (r.getSpotN floor row column).isOccupied = false) := by
  obtain ⟨_, _, hspot, _⟩ := reachable_inv hreach
  exact ⟨(hspot floor row column hf hrow hcol).1,
    (hspot floor row column hf hrow hcol).2.1⟩

/-- C7 witness: the invariant at spot (0,0,0) of the seed state with BC1
parked. -/
theorem C7_spot_occupancy_invariant_witness :
    ((sample3.getSpotN 0 0 0).isOccupied = true ↔
      (sample3.getSpotN 0 0 0).vehicleNumber ≠ "") ∧
    ((sample3.getSpotN 0 0 0).isActive = false →
      (sample3.getSpotN 0 0 0).isOccupied = false) :=
  C7_spot_occupancy_invariant sample3 reachable_sample3 0 0 0
    (by decide) (by decide) (by decide)

/-- C8: Configuring an in-bounds occupied spot always fails with the
"cannot reconfigure" error, for every spot-type code — the occupancy
check runs before the code is even validated — and the state (hence the
spot's type and active flag) is unchanged. -/
theorem C8_configure_occupied_fails (r : InMemoryParkingRepository)
    (floor row column : Int) (spotType : String)
    (hval : r.isValidLocation floor row column = true)
    (hocc : (r.getSpot floor row column).isOccupied = true) :
    ParkingService.configureSpot r floor row column spotType =
      (Except.error "cannot reconfigure an occupied parking spot", r) := by
  unfold ParkingService.configureSpot
  rw [hval]
  rw [if_neg (by decide : ¬ ((!true) = true))]
  rw [show r.isSpotOccupied floor row column =
      Except.ok (r.getSpot floor row column).isOccupied by
    unfold InMemoryParkingRepository.isSpotOccupied
    rw [hval]
    rw [if_neg (by decide : ¬ ((!true) = true))]]
  dsimp only
  rw [hocc]
  rw [if_pos rfl]

/-- C8 witness: reconfiguring occupied spot (0,0,0) of the seed state, with
an arbitrary code. -/
theorem C8_configure_occupied_fails_witness :
    ParkingService.configureSpot sample3 0 0 0 "X-0" =
      (Except.error "cannot reconfigure an occupied parking spot", sample3) :=
  C8_configure_occupied_fails sample3 0 0 0 "X-0" (by decide) (by decide)

/-- C9: In every reachable state the `current` map matches the grid:
`v ↦ sid` exactly when `sid` is the canonical ID of an in-grid spot
occupied by `v`; no two vehicles map to the same spot ID; and every
occupied spot's occupant is a key of the map, bound to that spot's ID. -/
theorem C9_vehicleMap_matches_grid (r : InMemoryParkingRepository)
    (hreach : Reachable r) :
    (∀ v sid, mapLookup r.vehicleMap v = some sid ↔
      ∃ f row col : Nat, f < r.floors.toNat ∧ row < r.rows.toNat ∧
        col < r.columns.toNat ∧
        sid = fmtSpotID (f : Int) (row : Int) (col : Int) ∧
        (r.getSpotN f row col).isOccupied = true ∧
        (r.getSpotN f row col).vehicleNumber = v) ∧
    (∀ v1 v2 sid, mapLookup r.vehicleMap v1 = some sid →
      mapLookup r.vehicleMap v2 = some sid → v1 = v2) ∧
    (∀ f row col : Nat, f < r.floors.toNat → row < r.rows.toNat →
      col < r.columns.toNat → (r.getSpotN f row col).isOccupied = true →
      mapLookup r.vehicleMap (r.getSpotN f row col).vehicleNumber =
        some (fmtSpotID (f : Int) (row : Int) (col : Int))) := by
  have hInv := reachable_inv hreach
  obtain ⟨hdims, hshape, hspot, hentry⟩ := hInv
  obtain ⟨⟨hd1, hd2⟩, ⟨hd3, hd4⟩, ⟨hd5, hd6⟩⟩ := id hdims
  have hmain : ∀ v sid, mapLookup r.vehicleMap v = some sid ↔
      ∃ f row col : Nat, f < r.floors.toNat ∧ row < r.rows.toNat ∧
        col < r.columns.toNat ∧
        sid = fmtSpotID (f : Int) (row : Int) (col : Int) ∧
        (r.getSpotN f row col).isOccupied = true ∧
        (r.getSpotN f row col).vehicleNumber = v := by
    intro v sid
    constructor
    · intro hl
      obtain ⟨p, hscan, hb1, hb2, hb3, hfmt, hocc', hnum'⟩ :=
        hentry (v, sid) (mem_of_mapLookup hl)
      exact ⟨p.1, p.2.1, p.2.2, hb1, hb2, hb3, hfmt, hocc', hnum'⟩
    · rintro ⟨f, row, col, hf, hrow, hcol, rfl, hocc', hnum'⟩
      have h3 := (hspot f row col hf hrow hcol).2.2 hocc'
      rw [hnum'] at h3
      exact h3
  refine ⟨hmain, ?_, ?_⟩
  · intro v1 v2 sid h1 h2
    obtain ⟨f1, row1, col1, hf1, hrow1, hcol1, hs1, ho1, hn1⟩ := (hmain v1 sid).mp h1
    obtain ⟨f2, row2, col2, hf2, hrow2, hcol2, hs2, ho2, hn2⟩ := (hmain v2 sid).mp h2
    have heq : fmtSpotID (f1 : Int) (row1 : Int) (col1 : Int) =
        fmtSpotID (f2 : Int) (row2 : Int) (col2 : Int) := by
      rw [← hs1, ← hs2]
    obtain ⟨rfl, rfl, rfl⟩ := fmtSpotID_inj_nat (by omega) (by omega) (by omega)
      (by omega) (by omega) (by omega) heq
    rw [← hn1, ← hn2]
  · intro f row col hf hrow hcol hocc'
    exact (hspot f row col hf hrow hcol).2.2 hocc'

/-- C9 witness: the map–grid correspondence on the seed state with BC1
parked at `0-0-0`. -/
theorem C9_vehicleMap_matches_grid_witness :
    (∀ v sid, mapLookup sample3.vehicleMap v = some sid ↔
      ∃ f row col : Nat, f < sample3.floors.toNat ∧ row < sample3.rows.toNat ∧
        col < sample3.columns.toNat ∧
        sid = fmtSpotID (f : Int) (row : Int) (col : Int) ∧
        (sample3.getSpotN f row col).isOccupied = true ∧
        (sample3.getSpotN f row col).vehicleNumber = v) ∧
    (∀ v1 v2 sid, mapLookup sample3.vehicleMap v1 = some sid →
      mapLookup sample3.vehicleMap v2 = some sid → v1 = v2) ∧
    (∀ f row col : Nat, f < sample3.floors.toNat → row < sample3.rows.toNat →
      col < sample3.columns.toNat → (sample3.getSpotN f row col).isOccupied = true →
      mapLookup sample3.vehicleMap (sample3.getSpotN f row col).vehicleNumber =
        some (fmtSpotID (f : Int) (row : Int) (col : Int))) :=
  C9_vehicleMap_matches_grid sample3 reachable_sample3

/-- C10: `InitializeParkingLot` (repository) replaces the grid but leaves
both vehicle maps untouched: a vehicle parked before a re-initialization
is still reported by `SearchVehicle` as currently parked at its old spot,
even though every spot of the new grid is unoccupied. (Nonnegative
dimensions: Go's `make` panics on negative lengths.) -/
theorem C10_reinit_preserves_vehicle_maps (r : InMemoryParkingRepository)
    (v s : String) (fl rw cl g : Int)
    (hparked : mapLookup r.vehicleMap v = some s)
    (hfl : 0 ≤ fl) (hrw : 0 ≤ rw) (hcl : 0 ≤ cl) :
    ∃ r', r.initializeParkingLot fl rw cl g = (Except.ok (), r') ∧
      r'.vehicleMap = r.vehicleMap ∧ r'.vehicleHistory = r.vehicleHistory ∧
      InMemoryParkingRepository.searchVehicle r' v = Except.ok (s, true) ∧
      ∀ f row col : Nat, (r'.getSpotN f row col).isOccupied = false := by
  refine ⟨(r.initializeParkingLot fl rw cl g).2, rfl, rfl, rfl, ?_, ?_⟩
  · unfold InMemoryParkingRepository.searchVehicle
    have hl : mapLookup (r.initializeParkingLot fl rw cl g).2.vehicleMap v =
        some s := hparked
    rw [hl]
  · intro f row col
    exact freshGrid_unoccupied fl rw cl f row col

/-- C10 witness: re-initializing to a 2×2×2 lot while BC1 is parked. -/
theorem C10_reinit_preserves_vehicle_maps_witness :
    ∃ r', sample3.initializeParkingLot 2 2 2 1 = (Except.ok (), r') ∧
      r'.vehicleMap = sample3.vehicleMap ∧
      r'.vehicleHistory = sample3.vehicleHistory ∧
      InMemoryParkingRepository.searchVehicle r' "BC1" = Except.ok ("0-0-0", true) ∧
      ∀ f row col : Nat, (r'.getSpotN f row col).isOccupied = false :=
  C10_reinit_preserves_vehicle_maps sample3 "BC1" "0-0-0" 2 2 2 1
    (by decide) (by decide) (by decide) (by decide)

end ParkingLot
